import Mathlib

/-!
Verification of the GeoJSON geometry codec (`geometry.go`).

The Go code encodes and decodes GeoJSON geometry objects to and from a
BSON-like structured document tree.  We shallowly embed the document tree
(`BVal`, with arrays `BArr` and ordered documents `BDoc`), the geometry
model (`Geometry`), the encode path (`toPureGeometry`, mirroring the
`geometry` struct layout with its `omitempty` payload keys) and the decode
path (`decodeGeometry`, `decodePosition`, `decodePositionSet`,
`decodePathSet`, `decodePolygonSet`, `decodeGeometries`).  Go `float64`
leaves are modelled as rationals: the codec never performs numeric
arithmetic, it only transports values and converts integer leaves to
floating point.

The unbounded mutual recursion between `decodeGeometry` and
`decodeGeometries` is embedded with an explicit fuel argument
(`decodeGeometryF`) so that every definition stays structurally recursive
and executable; the fuel-free wrappers supply a fuel that is always
sufficient (proved below), so the wrappers agree with the Go functions on
every input.
-/

namespace GeoJSON

/-
A BSON-like document value: the abstract tree produced by the document
adapter (`bson.Unmarshal` into `map[string]interface{}` / `primitive.A`).
Numeric leaves keep the distinction between `float64`, `int`, `int32` and
`int64` representations, since `decodePosition` switches on them.  Arrays
and documents are mutually inductive lists so that all functions over them
are structurally recursive and executable.
-/
mutual
inductive BVal : Type where
  | vFloat  : Rat → BVal
  | vInt    : Int → BVal
  | vInt32  : Int → BVal
  | vInt64  : Int → BVal
  | vStr    : String → BVal
  | vBool   : Bool → BVal
  | vNull   : BVal
  | vArr    : BArr → BVal
  | vDoc    : BDoc → BVal
inductive BArr : Type where
  | nil  : BArr
  | cons : BVal → BArr → BArr
inductive BDoc : Type where
  | nil  : BDoc
  | cons : String → BVal → BDoc → BDoc
end

/-
Structural sizes, used only to compute a sufficient fuel for the decoder
recursion.
-/
mutual
def BVal.size : BVal → Nat
  | .vArr l => l.size + 1
  | .vDoc d => d.size + 1
  | _ => 1
def BArr.size : BArr → Nat
  | .nil => 1
  | .cons v t => v.size + t.size + 1
def BDoc.size : BDoc → Nat
  | .nil => 1
  | .cons _ v t => v.size + t.size + 1
end

/-- Build an array value from a list. -/
def mkArr : List BVal → BArr
  | [] => .nil
  | v :: vs => .cons v (mkArr vs)

/-- Build a document from a key/value list. -/
def mkDoc : List (String × BVal) → BDoc
  | [] => .nil
  | (k, v) :: rest => .cons k v (mkDoc rest)

/-- The elements of an array value, as a list. -/
def BArr.toList : BArr → List BVal
  | .nil => []
  | .cons v t => v :: t.toList

/-- The keys of a document, in order. -/
def BDoc.keys : BDoc → List String
  | .nil => []
  | .cons k _ t => k :: t.keys

/-- Key lookup in a document, modelling Go's `object["key"]`.  A missing
key yields `none`, modelling Go's nil interface value. -/
def lookupKey : BDoc → String → Option BVal
  | .nil, _ => none
  | .cons k v rest, key => if k = key then some v else lookupKey rest key

/-- Decode errors, one constructor per distinct `errors.New`/`fmt.Errorf`
site in `geometry.go`, carrying the offending raw value where the Go code
formats it into the message.
In the terms of the specification's error taxonomy:
`missingType` is MissingType, `invalidType` is InvalidType,
`invalidPosition` and `invalidCoordinate` are the two InvalidPosition
errors produced by `decodePosition` ("not a valid position" and
"not a valid coordinate"), `invalidPositionSet` is InvalidPositionSequence
("not a valid set of positions"), `invalidPathSet` is InvalidPathSequence
("not a valid path"), `invalidPolygonSet` is InvalidPolygonSequence
("not a valid polygon") and `invalidGeometrySet` is InvalidGeometrySequence
("not a valid set of geometries"). -/
inductive DecodeError : Type where
  | missingType : DecodeError
  | invalidType : DecodeError
  | invalidPosition : Option BVal → DecodeError
  | invalidCoordinate : BVal → DecodeError
  | invalidPositionSet : Option BVal → DecodeError
  | invalidPathSet : Option BVal → DecodeError
  | invalidPolygonSet : Option BVal → DecodeError
  | invalidGeometrySet : Option BVal → DecodeError

/-
The `Geometry` struct: a record carrying the `Type` tag and all seven
payload fields simultaneously, exactly like the Go struct.  The recursive
`Geometries []*Geometry` field is modelled by the mutually inductive
`GeometryList`.
-/
mutual
inductive Geometry : Type where
  | mk (type : String)
       (point : List Rat)
       (multiPoint : List (List Rat))
       (lineString : List (List Rat))
       (multiLineString : List (List (List Rat)))
       (polygon : List (List (List Rat)))
       (multiPolygon : List (List (List (List Rat))))
       (geometries : GeometryList) : Geometry
inductive GeometryList : Type where
  | nil : GeometryList
  | cons : Geometry → GeometryList → GeometryList
end

def Geometry.type : Geometry → String
  | .mk t _ _ _ _ _ _ _ => t

def Geometry.point : Geometry → List Rat
  | .mk _ p _ _ _ _ _ _ => p

def Geometry.multiPoint : Geometry → List (List Rat)
  | .mk _ _ mp _ _ _ _ _ => mp

def Geometry.lineString : Geometry → List (List Rat)
  | .mk _ _ _ ls _ _ _ _ => ls

def Geometry.multiLineString : Geometry → List (List (List Rat))
  | .mk _ _ _ _ mls _ _ _ => mls

def Geometry.polygon : Geometry → List (List (List Rat))
  | .mk _ _ _ _ _ poly _ _ => poly

def Geometry.multiPolygon : Geometry → List (List (List (List Rat)))
  | .mk _ _ _ _ _ _ mpoly _ => mpoly

def Geometry.geometries : Geometry → GeometryList
  | .mk _ _ _ _ _ _ _ gs => gs

/-- The zero value `Geometry{}`: empty tag, nil slices. -/
def emptyGeometry : Geometry := .mk "" [] [] [] [] [] [] .nil

/-- Assignment `g.Type = s`. -/
def Geometry.setType : Geometry → String → Geometry
  | .mk _ p mp ls mls poly mpoly gs, t => .mk t p mp ls mls poly mpoly gs

/-- Assignment `g.Point = p`. -/
def Geometry.setPoint : Geometry → List Rat → Geometry
  | .mk t _ mp ls mls poly mpoly gs, p => .mk t p mp ls mls poly mpoly gs

/-- Assignment `g.MultiPoint = mp`. -/
def Geometry.setMultiPoint : Geometry → List (List Rat) → Geometry
  | .mk t p _ ls mls poly mpoly gs, mp => .mk t p mp ls mls poly mpoly gs

/-- Assignment `g.LineString = ls`. -/
def Geometry.setLineString : Geometry → List (List Rat) → Geometry
  | .mk t p mp _ mls poly mpoly gs, ls => .mk t p mp ls mls poly mpoly gs

/-- Assignment `g.MultiLineString = mls`. -/
def Geometry.setMultiLineString : Geometry → List (List (List Rat)) → Geometry
  | .mk t p mp ls _ poly mpoly gs, mls => .mk t p mp ls mls poly mpoly gs

/-- Assignment `g.Polygon = poly`. -/
def Geometry.setPolygon : Geometry → List (List (List Rat)) → Geometry
  | .mk t p mp ls mls _ mpoly gs, poly => .mk t p mp ls mls poly mpoly gs

/-- Assignment `g.MultiPolygon = mpoly`. -/
def Geometry.setMultiPolygon : Geometry → List (List (List (List Rat))) → Geometry
  | .mk t p mp ls mls poly _ gs, mpoly => .mk t p mp ls mls poly mpoly gs

/-- Assignment `g.Geometries = gs`. -/
def Geometry.setGeometries : Geometry → GeometryList → Geometry
  | .mk t p mp ls mls poly mpoly _, gs => .mk t p mp ls mls poly mpoly gs

/-- View a `GeometryList` as an ordinary list. -/
def GeometryList.toList : GeometryList → List Geometry
  | .nil => []
  | .cons g gs => g :: gs.toList

/-- Length of a `GeometryList` (`len(g.Geometries)`). -/
def GeometryList.length : GeometryList → Nat
  | .nil => 0
  | .cons _ gs => gs.length + 1

/-- Encoding of one position: a `[]float64` slice marshals as an array of
floating-point leaves. -/
def encodeCoords1 (p : List Rat) : BVal := .vArr (mkArr (p.map .vFloat))

/-- Encoding of a `[]Point` slice. -/
def encodeCoords2 (l : List (List Rat)) : BVal := .vArr (mkArr (l.map encodeCoords1))

/-- Encoding of a `[][]Point` slice. -/
def encodeCoords3 (l : List (List (List Rat))) : BVal := .vArr (mkArr (l.map encodeCoords2))

/-- Encoding of a `[][][]Point` slice. -/
def encodeCoords4 (l : List (List (List (List Rat)))) : BVal :=
  .vArr (mkArr (l.map encodeCoords3))

/-
The encode path: `toPureGeometry` projects the payload selected by the
`Type` tag into the ordered `geometry` struct
(`Type`, then `Coordinates,omitempty`, then `Geometries,omitempty`), and
marshalling that struct yields the document below.  The switch leaves both
payload interfaces nil for an unrecognized tag, so `omitempty` drops both
keys; for the six coordinate variants only `coordinates` is set and for
`GeometryCollection` only `geometries` is set, each child being marshalled
recursively through its own `toPureGeometry`.
-/
mutual
def toPureGeometry : Geometry → BDoc
  | .mk t p mp ls mls poly mpoly gs =>
    match t with
    | "Point" => mkDoc [("type", .vStr t), ("coordinates", encodeCoords1 p)]
    | "MultiPoint" => mkDoc [("type", .vStr t), ("coordinates", encodeCoords2 mp)]
    | "LineString" => mkDoc [("type", .vStr t), ("coordinates", encodeCoords2 ls)]
    | "MultiLineString" => mkDoc [("type", .vStr t), ("coordinates", encodeCoords3 mls)]
    | "Polygon" => mkDoc [("type", .vStr t), ("coordinates", encodeCoords3 poly)]
    | "MultiPolygon" => mkDoc [("type", .vStr t), ("coordinates", encodeCoords4 mpoly)]
    | "GeometryCollection" =>
      mkDoc [("type", .vStr t), ("geometries", .vArr (encodeGeometryList gs))]
    | _ => mkDoc [("type", .vStr t)]
def encodeGeometryList : GeometryList → BArr
  | .nil => .nil
  | .cons g gs => .cons (.vDoc (toPureGeometry g)) (encodeGeometryList gs)
end

/-- One arm of the `switch f := coord.(type)` inside `decodePosition`:
accept a `float64` leaf as is, convert `int`/`int32`/`int64` leaves to
floating point, fail on anything else reporting the offending element. -/
def decodeCoordinate : BVal → Except DecodeError Rat
  | .vFloat q => .ok q
  | .vInt i => .ok (i : Rat)
  | .vInt32 i => .ok (i : Rat)
  | .vInt64 i => .ok (i : Rat)
  | v => .error (.invalidCoordinate v)

/-- The element loop of `decodePosition`. -/
def decodeCoordList : BArr → Except DecodeError (List Rat)
  | .nil => .ok []
  | .cons c cs =>
    match decodeCoordinate c with
    | .ok q => (decodeCoordList cs).map (fun qs => q :: qs)
    | .error e => .error e

/-- `decodePosition`: requires a sequence (`primitive.A`) whose elements
are all numeric leaves.  `none` models Go's nil interface (missing key). -/
def decodePosition (data : Option BVal) : Except DecodeError (List Rat) :=
  match data with
  | some (.vArr coords) => decodeCoordList coords
  | _ => .error (.invalidPosition data)

/-- The element loop of `decodePositionSet`: the first inner
`decodePosition` failure is returned as is. -/
def decodePosList : BArr → Except DecodeError (List (List Rat))
  | .nil => .ok []
  | .cons p ps =>
    match decodePosition (some p) with
    | .ok q => (decodePosList ps).map (fun qs => q :: qs)
    | .error e => .error e

/-- `decodePositionSet`: a sequence of values each parsed by
`decodePosition`. -/
def decodePositionSet (data : Option BVal) : Except DecodeError (List (List Rat)) :=
  match data with
  | some (.vArr points) => decodePosList points
  | _ => .error (.invalidPositionSet data)

/-- The element loop of `decodePathSet`. -/
def decodePathList : BArr → Except DecodeError (List (List (List Rat)))
  | .nil => .ok []
  | .cons s ss =>
    match decodePositionSet (some s) with
    | .ok q => (decodePathList ss).map (fun qs => q :: qs)
    | .error e => .error e

/-- `decodePathSet`: a sequence of values each parsed by
`decodePositionSet`. -/
def decodePathSet (data : Option BVal) : Except DecodeError (List (List (List Rat))) :=
  match data with
  | some (.vArr sets) => decodePathList sets
  | _ => .error (.invalidPathSet data)

/-- The element loop of `decodePolygonSet`. -/
def decodePolyList : BArr → Except DecodeError (List (List (List (List Rat))))
  | .nil => .ok []
  | .cons p ps =>
    match decodePathSet (some p) with
    | .ok q => (decodePolyList ps).map (fun qs => q :: qs)
    | .error e => .error e

/-- `decodePolygonSet`: a sequence of values each parsed by
`decodePathSet`. -/
def decodePolygonSet (data : Option BVal) :
    Except DecodeError (List (List (List (List Rat)))) :=
  match data with
  | some (.vArr polygons) => decodePolyList polygons
  | _ => .error (.invalidPolygonSet data)

/-
Fuel-indexed embedding of `decodeGeometry` (mutating `g` in place) and of
the element loop of `decodeGeometries`.  A result of `none` means the fuel
ran out; the wrappers below always supply enough fuel, so this case is
unreachable through them.

`decodeGeometryF` mirrors the Go control flow exactly: the absence of a
`type` key fails with `missingType`; a non-string `type` fails with
`invalidType`; otherwise `g.Type` is assigned first, then the switch
dispatches.  Each coordinate arm performs the Go multi-assignment
`g.Field, err = decodeXxx(object["coordinates"])`, which on failure stores
the nil result in the field; an unrecognized tag falls through the switch
and succeeds with no payload assignment.

`decodeGeomElemsF` mirrors the loop of `decodeGeometries`: a non-document
element breaks out, which makes the final length check fail and yields the
"not a valid set of geometries" error on the whole input; a failing
recursive decode of a fresh `Geometry{}` returns that inner error
unchanged; otherwise the decoded children are collected in order.
-/
mutual
def decodeGeometryF : Nat → Geometry → BDoc → Option (Geometry × Option DecodeError)
  | 0, _, _ => none
  | fuel+1, g, obj =>
    match lookupKey obj "type" with
    | none => some (g, some .missingType)
    | some (.vStr s) =>
      match s with
      | "Point" =>
        match decodePosition (lookupKey obj "coordinates") with
        | .ok p => some ((g.setType s).setPoint p, none)
        | .error e => some ((g.setType s).setPoint [], some e)
      | "MultiPoint" =>
        match decodePositionSet (lookupKey obj "coordinates") with
        | .ok mp => some ((g.setType s).setMultiPoint mp, none)
        | .error e => some ((g.setType s).setMultiPoint [], some e)
      | "LineString" =>
        match decodePositionSet (lookupKey obj "coordinates") with
        | .ok ls => some ((g.setType s).setLineString ls, none)
        | .error e => some ((g.setType s).setLineString [], some e)
      | "MultiLineString" =>
        match decodePathSet (lookupKey obj "coordinates") with
        | .ok mls => some ((g.setType s).setMultiLineString mls, none)
        | .error e => some ((g.setType s).setMultiLineString [], some e)
      | "Polygon" =>
        match decodePathSet (lookupKey obj "coordinates") with
        | .ok poly => some ((g.setType s).setPolygon poly, none)
        | .error e => some ((g.setType s).setPolygon [], some e)
      | "MultiPolygon" =>
        match decodePolygonSet (lookupKey obj "coordinates") with
        | .ok mpoly => some ((g.setType s).setMultiPolygon mpoly, none)
        | .error e => some ((g.setType s).setMultiPolygon [], some e)
      | "GeometryCollection" =>
        match decodeGeometriesF fuel (lookupKey obj "geometries") with
        | none => none
        | some (.ok gs) => some ((g.setType s).setGeometries gs, none)
        | some (.error e) => some ((g.setType s).setGeometries .nil, some e)
      | _ => some (g.setType s, none)
    | some _ => some (g, some .invalidType)
def decodeGeometriesF : Nat → Option BVal → Option (Except DecodeError GeometryList)
  | 0, _ => none
  | fuel+1, data =>
    match data with
    | some (.vArr vs) => decodeGeomElemsF fuel (.vArr vs) vs
    | _ => some (.error (.invalidGeometrySet data))
def decodeGeomElemsF : Nat → BVal → BArr → Option (Except DecodeError GeometryList)
  | 0, _, _ => none
  | _+1, _, .nil => some (.ok .nil)
  | fuel+1, orig, .cons v vs =>
    match v with
    | .vDoc m =>
      match decodeGeometryF fuel emptyGeometry m with
      | none => none
      | some (_, some e) => some (.error e)
      | some (g2, none) =>
        match decodeGeomElemsF fuel orig vs with
        | none => none
        | some (.ok gs) => some (.ok (.cons g2 gs))
        | some (.error e) => some (.error e)
    | _ => some (.error (.invalidGeometrySet (some orig)))
end

/-- Size of the optional value handed to a decoder; used to compute a
sufficient fuel. -/
def optSize : Option BVal → Nat
  | none => 0
  | some v => v.size

/-- `decodeGeometry`, fuel-free: the Go function, taking the geometry
being decoded into (the receiver of `UnmarshalBSON`) and the document, and
returning the final state of that geometry together with the error, if
any.  The supplied fuel is always sufficient (proved below), so the
default is never used. -/
def decodeGeometry (g : Geometry) (obj : BDoc) : Geometry × Option DecodeError :=
  (decodeGeometryF (obj.size + 1) g obj).getD (g, none)

/-- `decodeGeometries`, fuel-free. -/
def decodeGeometries (data : Option BVal) : Except DecodeError GeometryList :=
  (decodeGeometriesF (optSize data + 1) data).getD (.error (.invalidGeometrySet data))

/-- `UnmarshalGeometry` at the document level: decode into a fresh
`Geometry{}` and return it, or return nothing on error (`return nil, err`). -/
def UnmarshalGeometry (obj : BDoc) : Option Geometry :=
  match decodeGeometry emptyGeometry obj with
  | (g, none) => some g
  | (_, some _) => none

/-- The geometry decoded from one element of a `geometries` sequence
(used to state the order-preservation of `decodeGeometries`): a document
element decodes into a fresh `Geometry{}`. -/
def decodeDocChild (m : BVal) : Geometry :=
  match m with
  | .vDoc d => (decodeGeometry emptyGeometry d).1
  | _ => emptyGeometry

/-
Well-formedness of an in-memory `Geometry`: the tag is one of the seven
recognized tags, only the payload field selected by the tag is populated,
and the children of a `GeometryCollection` are themselves well-formed.
-/
mutual
def WellFormed : Geometry → Prop
  | .mk t p mp ls mls poly mpoly gs =>
    (t = "Point" ∧ mp = [] ∧ ls = [] ∧ mls = [] ∧ poly = [] ∧ mpoly = [] ∧ gs = .nil) ∨
    (t = "MultiPoint" ∧ p = [] ∧ ls = [] ∧ mls = [] ∧ poly = [] ∧ mpoly = [] ∧ gs = .nil) ∨
    (t = "LineString" ∧ p = [] ∧ mp = [] ∧ mls = [] ∧ poly = [] ∧ mpoly = [] ∧ gs = .nil) ∨
    (t = "MultiLineString" ∧ p = [] ∧ mp = [] ∧ ls = [] ∧ poly = [] ∧ mpoly = [] ∧ gs = .nil) ∨
    (t = "Polygon" ∧ p = [] ∧ mp = [] ∧ ls = [] ∧ mls = [] ∧ mpoly = [] ∧ gs = .nil) ∨
    (t = "MultiPolygon" ∧ p = [] ∧ mp = [] ∧ ls = [] ∧ mls = [] ∧ poly = [] ∧ gs = .nil) ∨
    (t = "GeometryCollection" ∧ p = [] ∧ mp = [] ∧ ls = [] ∧ mls = [] ∧ poly = [] ∧
      mpoly = [] ∧ WellFormedList gs)
def WellFormedList : GeometryList → Prop
  | .nil => True
  | .cons g gs => WellFormed g ∧ WellFormedList gs
end

/-- The seven recognized `GeometryType` tags. -/
def recognizedTags : List String :=
  ["Point", "MultiPoint", "LineString", "MultiLineString", "Polygon", "MultiPolygon",
   "GeometryCollection"]

/-- Required `coordinates` nesting depth per coordinate-bearing tag, as
stated by the specification: 1 for Point, 2 for MultiPoint/LineString,
3 for MultiLineString/Polygon, 4 for MultiPolygon. -/
def coordTagDepth : String → Option Nat
  | "Point" => some 1
  | "MultiPoint" => some 2
  | "LineString" => some 2
  | "MultiLineString" => some 3
  | "Polygon" => some 3
  | "MultiPolygon" => some 4
  | _ => none

/-- Whether a value is a numeric leaf accepted by `decodePosition`. -/
def isNumVal : BVal → Bool
  | .vFloat _ => true
  | .vInt _ => true
  | .vInt32 _ => true
  | .vInt64 _ => true
  | _ => false

/-- The "not a sequence" error of the decoder that expects nesting level
`n` (1 = position, 2 = set of positions, 3 = path set, 4 = polygon set). -/
def seqErr : Nat → Option BVal → DecodeError
  | 1, w => .invalidPosition w
  | 2, w => .invalidPositionSet w
  | 3, w => .invalidPathSet w
  | _, w => .invalidPolygonSet w

/-- A value has uniform strict nesting depth `d`: at depth 0 it is a
numeric leaf, at depth `d+1` it is a nonempty sequence of values of depth
`d`.  (Nonemptiness keeps the depth unambiguous: an empty sequence would
vacuously have every positive depth.) -/
inductive StrictDepth : Nat → BVal → Prop where
  | num : ∀ v, isNumVal v = true → StrictDepth 0 v
  | arr : ∀ n l, l ≠ BArr.nil → (∀ v ∈ BArr.toList l, StrictDepth n v) →
      StrictDepth (n + 1) (.vArr l)


/-- One unfolding step of `decodeGeometryF`, with the recursive
`decodeGeometries` call abstracted as a parameter.
`decodeGeometryF (fuel+1)` is definitionally
`decodeStep (decodeGeometriesF fuel)`; all reasoning about fuel goes
through this function. -/
def decodeStep (geoms : Option BVal → Option (Except DecodeError GeometryList))
    (g : Geometry) (obj : BDoc) : Option (Geometry × Option DecodeError) :=
  match lookupKey obj "type" with
  | none => some (g, some .missingType)
  | some (.vStr s) =>
    match s with
    | "Point" =>
      match decodePosition (lookupKey obj "coordinates") with
      | .ok p => some ((g.setType s).setPoint p, none)
      | .error e => some ((g.setType s).setPoint [], some e)
    | "MultiPoint" =>
      match decodePositionSet (lookupKey obj "coordinates") with
      | .ok mp => some ((g.setType s).setMultiPoint mp, none)
      | .error e => some ((g.setType s).setMultiPoint [], some e)
    | "LineString" =>
      match decodePositionSet (lookupKey obj "coordinates") with
      | .ok ls => some ((g.setType s).setLineString ls, none)
      | .error e => some ((g.setType s).setLineString [], some e)
    | "MultiLineString" =>
      match decodePathSet (lookupKey obj "coordinates") with
      | .ok mls => some ((g.setType s).setMultiLineString mls, none)
      | .error e => some ((g.setType s).setMultiLineString [], some e)
    | "Polygon" =>
      match decodePathSet (lookupKey obj "coordinates") with
      | .ok poly => some ((g.setType s).setPolygon poly, none)
      | .error e => some ((g.setType s).setPolygon [], some e)
    | "MultiPolygon" =>
      match decodePolygonSet (lookupKey obj "coordinates") with
      | .ok mpoly => some ((g.setType s).setMultiPolygon mpoly, none)
      | .error e => some ((g.setType s).setMultiPolygon [], some e)
    | "GeometryCollection" =>
      match geoms (lookupKey obj "geometries") with
      | none => none
      | some (.ok gs) => some ((g.setType s).setGeometries gs, none)
      | some (.error e) => some ((g.setType s).setGeometries .nil, some e)
    | _ => some (g.setType s, none)
  | some _ => some (g, some .invalidType)

/-! ### Basic size lemmas -/

theorem BVal.val_size_pos (v : BVal) : 1 ≤ v.size := by
  cases v <;> simp [BVal.size]

theorem BArr.arr_size_pos (l : BArr) : 1 ≤ l.size := by
  cases l <;> simp [BArr.size]

theorem BDoc.doc_size_pos (d : BDoc) : 1 ≤ d.size := by
  cases d <;> simp [BDoc.size]

theorem lookupKey_size : ∀ (obj : BDoc) (k : String) (v : BVal),
    lookupKey obj k = some v → v.size < obj.size
  | .nil, _, _, h => by simp [lookupKey] at h
  | .cons k' v' rest, k, v, h => by
    simp only [lookupKey] at h
    split at h
    · cases h
      have := BDoc.doc_size_pos rest
      simp [BDoc.size]
      omega
    · have := lookupKey_size rest k v h
      have := BVal.val_size_pos v'
      simp [BDoc.size]
      omega

theorem decodeGeometryF_succ (fuel : Nat) (g : Geometry) (obj : BDoc) :
    decodeGeometryF (fuel + 1) g obj = decodeStep (decodeGeometriesF fuel) g obj := rfl

theorem decodeStep_mono (g1 g2 : Option BVal → Option (Except DecodeError GeometryList))
    (g : Geometry) (obj : BDoc) (r : Geometry × Option DecodeError)
    (h : ∀ res, g1 (lookupKey obj "geometries") = some res →
        g2 (lookupKey obj "geometries") = some res)
    (hs : decodeStep g1 g obj = some r) : decodeStep g2 g obj = some r := by
  unfold decodeStep at hs ⊢
  split at hs
  · exact hs
  · -- type is a string
    split at hs
    · exact hs
    · exact hs
    · exact hs
    · exact hs
    · exact hs
    · exact hs
    · -- GeometryCollection
      cases hgeo : g1 (lookupKey obj "geometries") with
      | none => rw [hgeo] at hs; simp at hs
      | some res =>
        rw [hgeo] at hs
        rw [h res hgeo]
        exact hs
    · exact hs
  · exact hs

theorem decodeStep_isSome (geoms : Option BVal → Option (Except DecodeError GeometryList))
    (g : Geometry) (obj : BDoc)
    (h : (geoms (lookupKey obj "geometries")).isSome = true) :
    (decodeStep geoms g obj).isSome = true := by
  unfold decodeStep
  split
  · simp
  · split
    · split <;> simp
    · split <;> simp
    · split <;> simp
    · split <;> simp
    · split <;> simp
    · split <;> simp
    · obtain ⟨res, hres⟩ := Option.isSome_iff_exists.mp h
      rw [hres]
      cases res <;> simp
    · simp
  · simp


theorem decodeF_mono : ∀ f1 : Nat,
    (∀ f2 g obj r, f1 ≤ f2 → decodeGeometryF f1 g obj = some r → decodeGeometryF f2 g obj = some r)
    ∧ (∀ f2 data r, f1 ≤ f2 → decodeGeometriesF f1 data = some r →
        decodeGeometriesF f2 data = some r)
    ∧ (∀ f2 orig l r, f1 ≤ f2 → decodeGeomElemsF f1 orig l = some r →
        decodeGeomElemsF f2 orig l = some r) := by
  intro f1
  induction f1 with
  | zero =>
    refine ⟨fun f2 g obj r _ hsome => ?_, fun f2 data r _ hsome => ?_,
            fun f2 orig l r _ hsome => ?_⟩ <;>
      simp [decodeGeometryF, decodeGeometriesF, decodeGeomElemsF] at hsome
  | succ f ih =>
    obtain ⟨ihG, ihD, ihE⟩ := ih
    refine ⟨?_, ?_, ?_⟩
    · intro f2 g obj r hle hsome
      cases f2 with
      | zero => omega
      | succ f2' =>
        have hle' : f ≤ f2' := by omega
        rw [decodeGeometryF_succ] at hsome ⊢
        exact decodeStep_mono _ _ g obj r (fun res hres => ihD f2' _ res hle' hres) hsome
    · intro f2 data r hle hsome
      cases f2 with
      | zero => omega
      | succ f2' =>
        have hle' : f ≤ f2' := by omega
        cases data with
        | none =>
          simp only [decodeGeometriesF] at hsome ⊢
          exact hsome
        | some w =>
          rcases w with q | i | i | i | s | b | _ | vs | d <;>
            simp only [decodeGeometriesF] at hsome ⊢ <;>
            try exact hsome
          exact ihE f2' _ vs r hle' hsome
    · intro f2 orig l r hle hsome
      cases f2 with
      | zero => omega
      | succ f2' =>
        have hle' : f ≤ f2' := by omega
        cases l with
        | nil =>
          simp only [decodeGeomElemsF] at hsome ⊢
          exact hsome
        | cons v vs =>
          rcases v with q | i | i | i | s | b | _ | a | d <;>
            simp only [decodeGeomElemsF] at hsome ⊢ <;> try exact hsome
          cases h1 : decodeGeometryF f emptyGeometry d with
          | none => rw [h1] at hsome; simp at hsome
          | some r1 =>
            rw [h1] at hsome
            rw [ihG f2' emptyGeometry d r1 hle' h1]
            obtain ⟨g2, err⟩ := r1
            cases err with
            | some e => exact hsome
            | none =>
              cases h2 : decodeGeomElemsF f orig vs with
              | none => rw [h2] at hsome; simp at hsome
              | some res2 =>
                rw [h2] at hsome
                rw [ihE f2' orig vs res2 hle' h2]
                exact hsome

theorem decodeF_isSome : ∀ fuel : Nat,
    (∀ g obj, BDoc.size obj < fuel → (decodeGeometryF fuel g obj).isSome = true)
    ∧ (∀ data, optSize data < fuel → (decodeGeometriesF fuel data).isSome = true)
    ∧ (∀ orig l, BArr.size l < fuel → (decodeGeomElemsF fuel orig l).isSome = true) := by
  intro fuel
  induction fuel with
  | zero =>
    refine ⟨fun g obj h => ?_, fun data h => ?_, fun orig l h => ?_⟩
    · exact absurd h (by have := BDoc.doc_size_pos obj; omega)
    · exact absurd h (by omega)
    · exact absurd h (by have := BArr.arr_size_pos l; omega)
  | succ f ih =>
    obtain ⟨ihG, ihD, ihE⟩ := ih
    refine ⟨?_, ?_, ?_⟩
    · intro g obj h
      rw [decodeGeometryF_succ]
      apply decodeStep_isSome
      apply ihD
      cases hg : lookupKey obj "geometries" with
      | none =>
        have := BDoc.doc_size_pos obj
        simp [optSize]
        omega
      | some w =>
        have := lookupKey_size obj _ w hg
        simp [optSize]
        omega
    · intro data h
      cases data with
      | none => simp [decodeGeometriesF]
      | some w =>
        rcases w with q | i | i | i | s | b | _ | vs | d <;> try simp [decodeGeometriesF]
        apply ihE
        simp [optSize, BVal.size] at h
        omega
    · intro orig l h
      cases l with
      | nil => simp [decodeGeomElemsF]
      | cons v vs =>
        rcases v with q | i | i | i | s | b | _ | a | d <;> try simp [decodeGeomElemsF]
        have hm : BDoc.size d < f := by
          have := BArr.arr_size_pos vs
          simp [BArr.size, BVal.size] at h
          omega
        have hvs : BArr.size vs < f := by
          have := BVal.val_size_pos (.vDoc d)
          simp [BArr.size] at h
          omega
        obtain ⟨r1, hr1⟩ := Option.isSome_iff_exists.mp (ihG emptyGeometry d hm)
        rw [hr1]
        obtain ⟨g2, err⟩ := r1
        cases err with
        | some e => simp
        | none =>
          obtain ⟨r2, hr2⟩ := Option.isSome_iff_exists.mp (ihE orig vs hvs)
          rw [hr2]
          cases r2 <;> simp


theorem decodeGeometry_eq_of_F {fuel : Nat} {g : Geometry} {obj : BDoc}
    {r : Geometry × Option DecodeError}
    (h : decodeGeometryF fuel g obj = some r) : decodeGeometry g obj = r := by
  obtain ⟨r', hr'⟩ := Option.isSome_iff_exists.mp
    ((decodeF_isSome (BDoc.size obj + 1)).1 g obj (by omega))
  have h1 := (decodeF_mono fuel).1 (max fuel (BDoc.size obj + 1)) g obj r (le_max_left _ _) h
  have h2 := (decodeF_mono (BDoc.size obj + 1)).1 (max fuel (BDoc.size obj + 1)) g obj r'
    (le_max_right _ _) hr'
  rw [h1] at h2
  have hrr : r = r' := Option.some.inj h2
  unfold decodeGeometry
  rw [hr', hrr]
  rfl

theorem decodeGeometryF_eq_decode {fuel : Nat} (g : Geometry) (obj : BDoc)
    (h : BDoc.size obj < fuel) :
    decodeGeometryF fuel g obj = some (decodeGeometry g obj) := by
  obtain ⟨r, hr⟩ := Option.isSome_iff_exists.mp ((decodeF_isSome fuel).1 g obj h)
  rw [hr, decodeGeometry_eq_of_F hr]

theorem decodeGeometries_eq_of_F {fuel : Nat} {data : Option BVal}
    {r : Except DecodeError GeometryList}
    (h : decodeGeometriesF fuel data = some r) : decodeGeometries data = r := by
  obtain ⟨r', hr'⟩ := Option.isSome_iff_exists.mp
    ((decodeF_isSome (optSize data + 1)).2.1 data (by omega))
  have h1 := (decodeF_mono fuel).2.1 (max fuel (optSize data + 1)) data r (le_max_left _ _) h
  have h2 := (decodeF_mono (optSize data + 1)).2.1 (max fuel (optSize data + 1)) data r'
    (le_max_right _ _) hr'
  rw [h1] at h2
  have hrr : r = r' := Option.some.inj h2
  unfold decodeGeometries
  rw [hr', hrr]
  rfl

theorem decodeGeometriesF_eq_decode {fuel : Nat} (data : Option BVal)
    (h : optSize data < fuel) :
    decodeGeometriesF fuel data = some (decodeGeometries data) := by
  obtain ⟨r, hr⟩ := Option.isSome_iff_exists.mp ((decodeF_isSome fuel).2.1 data h)
  rw [hr, decodeGeometries_eq_of_F hr]

theorem decodeGeometry_step {g : Geometry} {obj : BDoc} {r : Geometry × Option DecodeError}
    (h : decodeStep (decodeGeometriesF (BDoc.size obj)) g obj = some r) :
    decodeGeometry g obj = r :=
  decodeGeometry_eq_of_F ((decodeGeometryF_succ (BDoc.size obj) g obj).trans h)

theorem decodeStep_missing (geoms : Option BVal → Option (Except DecodeError GeometryList))
    (g : Geometry) (obj : BDoc) (hty : lookupKey obj "type" = none) :
    decodeStep geoms g obj = some (g, some .missingType) := by
  unfold decodeStep
  rw [hty]

theorem decodeStep_notString (geoms : Option BVal → Option (Except DecodeError GeometryList))
    (g : Geometry) (obj : BDoc) (v : BVal) (hty : lookupKey obj "type" = some v)
    (hv : ∀ s, v ≠ .vStr s) :
    decodeStep geoms g obj = some (g, some .invalidType) := by
  unfold decodeStep
  rw [hty]
  rcases v with q | i | i | i | s | b | _ | a | d
  · rfl
  · rfl
  · rfl
  · rfl
  · exact absurd rfl (hv s)
  · rfl
  · rfl
  · rfl
  · rfl

theorem decodeStep_point (geoms : Option BVal → Option (Except DecodeError GeometryList))
    (g : Geometry) (obj : BDoc) (hty : lookupKey obj "type" = some (.vStr "Point")) :
    decodeStep geoms g obj =
      (match decodePosition (lookupKey obj "coordinates") with
       | .ok p => some ((g.setType "Point").setPoint p, none)
       | .error e => some ((g.setType "Point").setPoint [], some e)) := by
  unfold decodeStep
  rw [hty]
  rfl

theorem decodeStep_multiPoint (geoms : Option BVal → Option (Except DecodeError GeometryList))
    (g : Geometry) (obj : BDoc) (hty : lookupKey obj "type" = some (.vStr "MultiPoint")) :
    decodeStep geoms g obj =
      (match decodePositionSet (lookupKey obj "coordinates") with
       | .ok mp => some ((g.setType "MultiPoint").setMultiPoint mp, none)
       | .error e => some ((g.setType "MultiPoint").setMultiPoint [], some e)) := by
  unfold decodeStep
  rw [hty]
  rfl

theorem decodeStep_lineString (geoms : Option BVal → Option (Except DecodeError GeometryList))
    (g : Geometry) (obj : BDoc) (hty : lookupKey obj "type" = some (.vStr "LineString")) :
    decodeStep geoms g obj =
      (match decodePositionSet (lookupKey obj "coordinates") with
       | .ok ls => some ((g.setType "LineString").setLineString ls, none)
       | .error e => some ((g.setType "LineString").setLineString [], some e)) := by
  unfold decodeStep
  rw [hty]
  rfl

theorem decodeStep_multiLineString
    (geoms : Option BVal → Option (Except DecodeError GeometryList))
    (g : Geometry) (obj : BDoc)
    (hty : lookupKey obj "type" = some (.vStr "MultiLineString")) :
    decodeStep geoms g obj =
      (match decodePathSet (lookupKey obj "coordinates") with
       | .ok mls => some ((g.setType "MultiLineString").setMultiLineString mls, none)
       | .error e => some ((g.setType "MultiLineString").setMultiLineString [], some e)) := by
  unfold decodeStep
  rw [hty]
  rfl

theorem decodeStep_polygon (geoms : Option BVal → Option (Except DecodeError GeometryList))
    (g : Geometry) (obj : BDoc) (hty : lookupKey obj "type" = some (.vStr "Polygon")) :
    decodeStep geoms g obj =
      (match decodePathSet (lookupKey obj "coordinates") with
       | .ok poly => some ((g.setType "Polygon").setPolygon poly, none)
       | .error e => some ((g.setType "Polygon").setPolygon [], some e)) := by
  unfold decodeStep
  rw [hty]
  rfl

theorem decodeStep_multiPolygon (geoms : Option BVal → Option (Except DecodeError GeometryList))
    (g : Geometry) (obj : BDoc) (hty : lookupKey obj "type" = some (.vStr "MultiPolygon")) :
    decodeStep geoms g obj =
      (match decodePolygonSet (lookupKey obj "coordinates") with
       | .ok mpoly => some ((g.setType "MultiPolygon").setMultiPolygon mpoly, none)
       | .error e => some ((g.setType "MultiPolygon").setMultiPolygon [], some e)) := by
  unfold decodeStep
  rw [hty]
  rfl

theorem decodeStep_collection (geoms : Option BVal → Option (Except DecodeError GeometryList))
    (g : Geometry) (obj : BDoc)
    (hty : lookupKey obj "type" = some (.vStr "GeometryCollection")) :
    decodeStep geoms g obj =
      (match geoms (lookupKey obj "geometries") with
       | none => none
       | some (.ok gs) => some ((g.setType "GeometryCollection").setGeometries gs, none)
       | some (.error e) =>
         some ((g.setType "GeometryCollection").setGeometries .nil, some e)) := by
  unfold decodeStep
  rw [hty]
  rfl

theorem decodeStep_unknown (geoms : Option BVal → Option (Except DecodeError GeometryList))
    (g : Geometry) (obj : BDoc) (s : String) (hty : lookupKey obj "type" = some (.vStr s))
    (h1 : s ≠ "Point") (h2 : s ≠ "MultiPoint") (h3 : s ≠ "LineString")
    (h4 : s ≠ "MultiLineString") (h5 : s ≠ "Polygon") (h6 : s ≠ "MultiPolygon")
    (h7 : s ≠ "GeometryCollection") :
    decodeStep geoms g obj = some (g.setType s, none) := by
  unfold decodeStep
  rw [hty]
  split
  · simp_all
  · -- the type tag is some string
    split
    · simp_all
    · simp_all
    · simp_all
    · simp_all
    · simp_all
    · simp_all
    · simp_all
    · simp_all
  · rename_i hv heq
    exact absurd (Option.some.inj heq).symm (hv s)


/-! ### Coordinate decoder lemmas -/

theorem decodeCoordinate_num {c : BVal} (h : isNumVal c = true) :
    ∃ q, decodeCoordinate c = .ok q := by
  cases c <;> simp [isNumVal] at h <;> simp [decodeCoordinate]

theorem decodeCoordinate_not_num {c : BVal} (h : isNumVal c = false) :
    decodeCoordinate c = .error (.invalidCoordinate c) := by
  cases c <;> simp [isNumVal] at h <;> simp [decodeCoordinate]

theorem decodeCoordinate_ne_typeErr {c : BVal} {e : DecodeError}
    (h : decodeCoordinate c = .error e) : e ≠ .missingType ∧ e ≠ .invalidType := by
  cases c <;> simp [decodeCoordinate] at h <;> simp [← h]

theorem decodeCoordList_ok : ∀ b : BArr, (∀ c ∈ b.toList, isNumVal c = true) →
    ∃ qs, decodeCoordList b = .ok qs
  | .nil, _ => ⟨[], rfl⟩
  | .cons c cs, h => by
    obtain ⟨q, hq⟩ := decodeCoordinate_num (h c (by simp [BArr.toList]))
    obtain ⟨qs, hqs⟩ := decodeCoordList_ok cs (fun x hx => h x (by simp [BArr.toList, hx]))
    exact ⟨q :: qs, by simp [decodeCoordList, hq, hqs, Except.map]⟩

theorem decodeCoordList_first_bad : ∀ (b : BArr) (pre : List BVal) (c : BVal)
    (post : List BVal), b.toList = pre ++ c :: post → (∀ x ∈ pre, isNumVal x = true) →
    isNumVal c = false → decodeCoordList b = .error (.invalidCoordinate c)
  | .nil, pre, c, post, hsplit, _, _ => by simp [BArr.toList] at hsplit
  | .cons x xs, pre, c, post, hsplit, hpre, hc => by
    simp only [BArr.toList] at hsplit
    cases pre with
    | nil =>
      simp at hsplit
      obtain ⟨rfl, _⟩ := hsplit
      simp [decodeCoordList, decodeCoordinate_not_num hc]
    | cons p0 pre' =>
      simp at hsplit
      obtain ⟨rfl, hsplit'⟩ := hsplit
      obtain ⟨q, hq⟩ := decodeCoordinate_num (hpre x (by simp))
      have := decodeCoordList_first_bad xs pre' c post hsplit'
        (fun y hy => hpre y (by simp [hy])) hc
      simp [decodeCoordList, hq, this, Except.map]

theorem decodeCoordList_ne_typeErr : ∀ (b : BArr) {e : DecodeError},
    decodeCoordList b = .error e → e ≠ .missingType ∧ e ≠ .invalidType
  | .nil, e, h => by simp [decodeCoordList] at h
  | .cons c cs, e, h => by
    simp only [decodeCoordList] at h
    cases hc : decodeCoordinate c with
    | ok q =>
      rw [hc] at h
      cases hcs : decodeCoordList cs with
      | ok qs => rw [hcs] at h; simp [Except.map] at h
      | error e' =>
        rw [hcs] at h
        simp [Except.map] at h
        rw [← h]
        exact decodeCoordList_ne_typeErr cs hcs
    | error e' =>
      rw [hc] at h
      simp at h
      rw [← h]
      exact decodeCoordinate_ne_typeErr hc

theorem decodePosition_ne_typeErr {d : Option BVal} {e : DecodeError}
    (h : decodePosition d = .error e) : e ≠ .missingType ∧ e ≠ .invalidType := by
  unfold decodePosition at h
  split at h
  · exact decodeCoordList_ne_typeErr _ h
  · simp at h
    rw [← h]
    simp


theorem decodePosList_ok : ∀ b : BArr,
    (∀ p ∈ b.toList, ∃ q, decodePosition (some p) = .ok q) →
    ∃ ps, decodePosList b = .ok ps
  | .nil, _ => ⟨[], rfl⟩
  | .cons p rest, h => by
    obtain ⟨q, hq⟩ := h p (by simp [BArr.toList])
    obtain ⟨qs, hqs⟩ := decodePosList_ok rest (fun x hx => h x (by simp [BArr.toList, hx]))
    exact ⟨q :: qs, by simp [decodePosList, hq, hqs, Except.map]⟩

theorem decodePosList_ok_all : ∀ (b : BArr) (ps : List (List Rat)),
    decodePosList b = .ok ps → ∀ p ∈ b.toList, ∃ q, decodePosition (some p) = .ok q
  | .nil, _, _ => by simp [BArr.toList]
  | .cons p rest, ps, h => by
    simp only [decodePosList] at h
    cases hp : decodePosition (some p) with
    | error e => rw [hp] at h; simp at h
    | ok q =>
      rw [hp] at h
      cases hrest : decodePosList rest with
      | error e => rw [hrest] at h; simp [Except.map] at h
      | ok qs =>
        intro x hx
        simp [BArr.toList] at hx
        rcases hx with rfl | hx
        · exact ⟨q, hp⟩
        · exact decodePosList_ok_all rest qs hrest x hx

theorem decodePosList_first_error : ∀ (b : BArr) (pre : List BVal) (v : BVal)
    (post : List BVal) (e : DecodeError), b.toList = pre ++ v :: post →
    (∀ p ∈ pre, ∃ q, decodePosition (some p) = .ok q) →
    decodePosition (some v) = .error e → decodePosList b = .error e
  | .nil, pre, v, post, e, hsplit, _, _ => by simp [BArr.toList] at hsplit
  | .cons x xs, pre, v, post, e, hsplit, hpre, hv => by
    simp only [BArr.toList] at hsplit
    cases pre with
    | nil =>
      simp at hsplit
      obtain ⟨rfl, _⟩ := hsplit
      simp [decodePosList, hv]
    | cons p0 pre' =>
      simp at hsplit
      obtain ⟨rfl, hsplit'⟩ := hsplit
      obtain ⟨q, hq⟩ := hpre x (by simp)
      have := decodePosList_first_error xs pre' v post e hsplit'
        (fun y hy => hpre y (by simp [hy])) hv
      simp [decodePosList, hq, this, Except.map]

theorem decodePosList_ne_typeErr : ∀ (b : BArr) {e : DecodeError},
    decodePosList b = .error e → e ≠ .missingType ∧ e ≠ .invalidType
  | .nil, e, h => by simp [decodePosList] at h
  | .cons p rest, e, h => by
    simp only [decodePosList] at h
    cases hp : decodePosition (some p) with
    | ok q =>
      rw [hp] at h
      cases hrest : decodePosList rest with
      | ok qs => rw [hrest] at h; simp [Except.map] at h
      | error e' =>
        rw [hrest] at h
        simp [Except.map] at h
        rw [← h]
        exact decodePosList_ne_typeErr rest hrest
    | error e' =>
      rw [hp] at h
      simp at h
      rw [← h]
      exact decodePosition_ne_typeErr hp

theorem decodePositionSet_ne_typeErr {d : Option BVal} {e : DecodeError}
    (h : decodePositionSet d = .error e) : e ≠ .missingType ∧ e ≠ .invalidType := by
  unfold decodePositionSet at h
  split at h
  · exact decodePosList_ne_typeErr _ h
  · simp at h
    rw [← h]
    simp

theorem decodePathList_ne_typeErr : ∀ (b : BArr) {e : DecodeError},
    decodePathList b = .error e → e ≠ .missingType ∧ e ≠ .invalidType
  | .nil, e, h => by simp [decodePathList] at h
  | .cons s rest, e, h => by
    simp only [decodePathList] at h
    cases hs : decodePositionSet (some s) with
    | ok q =>
      rw [hs] at h
      cases hrest : decodePathList rest with
      | ok qs => rw [hrest] at h; simp [Except.map] at h
      | error e' =>
        rw [hrest] at h
        simp [Except.map] at h
        rw [← h]
        exact decodePathList_ne_typeErr rest hrest
    | error e' =>
      rw [hs] at h
      simp at h
      rw [← h]
      exact decodePositionSet_ne_typeErr hs

theorem decodePathSet_ne_typeErr {d : Option BVal} {e : DecodeError}
    (h : decodePathSet d = .error e) : e ≠ .missingType ∧ e ≠ .invalidType := by
  unfold decodePathSet at h
  split at h
  · exact decodePathList_ne_typeErr _ h
  · simp at h
    rw [← h]
    simp

theorem decodePolyList_ne_typeErr : ∀ (b : BArr) {e : DecodeError},
    decodePolyList b = .error e → e ≠ .missingType ∧ e ≠ .invalidType
  | .nil, e, h => by simp [decodePolyList] at h
  | .cons p rest, e, h => by
    simp only [decodePolyList] at h
    cases hp : decodePathSet (some p) with
    | ok q =>
      rw [hp] at h
      cases hrest : decodePolyList rest with
      | ok qs => rw [hrest] at h; simp [Except.map] at h
      | error e' =>
        rw [hrest] at h
        simp [Except.map] at h
        rw [← h]
        exact decodePolyList_ne_typeErr rest hrest
    | error e' =>
      rw [hp] at h
      simp at h
      rw [← h]
      exact decodePathSet_ne_typeErr hp

theorem decodePolygonSet_ne_typeErr {d : Option BVal} {e : DecodeError}
    (h : decodePolygonSet d = .error e) : e ≠ .missingType ∧ e ≠ .invalidType := by
  unfold decodePolygonSet at h
  split at h
  · exact decodePolyList_ne_typeErr _ h
  · simp at h
    rw [← h]
    simp

/-! ### Encode/decode round trips at the coordinate levels -/

theorem decodeCoordList_encode (p : List Rat) :
    decodeCoordList (mkArr (p.map .vFloat)) = .ok p := by
  induction p with
  | nil => rfl
  | cons q qs ih => simp [mkArr, decodeCoordList, decodeCoordinate, ih, Except.map]

theorem decodePosition_encode (p : List Rat) :
    decodePosition (some (encodeCoords1 p)) = .ok p := by
  simp [decodePosition, encodeCoords1, decodeCoordList_encode]

theorem decodePosList_encode (l : List (List Rat)) :
    decodePosList (mkArr (l.map encodeCoords1)) = .ok l := by
  induction l with
  | nil => rfl
  | cons p rest ih => simp [mkArr, decodePosList, decodePosition_encode, ih, Except.map]

theorem decodePositionSet_encode (l : List (List Rat)) :
    decodePositionSet (some (encodeCoords2 l)) = .ok l := by
  simp [decodePositionSet, encodeCoords2, decodePosList_encode]

theorem decodePathList_encode (l : List (List (List Rat))) :
    decodePathList (mkArr (l.map encodeCoords2)) = .ok l := by
  induction l with
  | nil => rfl
  | cons p rest ih => simp [mkArr, decodePathList, decodePositionSet_encode, ih, Except.map]

theorem decodePathSet_encode (l : List (List (List Rat))) :
    decodePathSet (some (encodeCoords3 l)) = .ok l := by
  simp [decodePathSet, encodeCoords3, decodePathList_encode]

theorem decodePolyList_encode (l : List (List (List (List Rat)))) :
    decodePolyList (mkArr (l.map encodeCoords3)) = .ok l := by
  induction l with
  | nil => rfl
  | cons p rest ih => simp [mkArr, decodePolyList, decodePathSet_encode, ih, Except.map]

theorem decodePolygonSet_encode (l : List (List (List (List Rat)))) :
    decodePolygonSet (some (encodeCoords4 l)) = .ok l := by
  simp [decodePolygonSet, encodeCoords4, decodePolyList_encode]


/-! ### Round trip -/

theorem roundtripF : ∀ fuel : Nat,
    (∀ g : Geometry, WellFormed g → BDoc.size (toPureGeometry g) < fuel →
      decodeGeometryF fuel emptyGeometry (toPureGeometry g) = some (g, none))
    ∧ (∀ gs : GeometryList, WellFormedList gs →
      BArr.size (encodeGeometryList gs) + 1 < fuel →
      decodeGeometriesF fuel (some (.vArr (encodeGeometryList gs))) = some (.ok gs))
    ∧ (∀ (orig : BVal) (gs : GeometryList), WellFormedList gs →
      BArr.size (encodeGeometryList gs) < fuel →
      decodeGeomElemsF fuel orig (encodeGeometryList gs) = some (.ok gs)) := by
  intro fuel
  induction fuel with
  | zero =>
    refine ⟨fun g _ h => ?_, fun gs _ h => ?_, fun orig gs _ h => ?_⟩
    · exact absurd h (by have := BDoc.doc_size_pos (toPureGeometry g); omega)
    · exact absurd h (by omega)
    · exact absurd h (by have := BArr.arr_size_pos (encodeGeometryList gs); omega)
  | succ f ih =>
    obtain ⟨ihG, ihD, ihE⟩ := ih
    refine ⟨?_, ?_, ?_⟩
    · intro g hwf hsize
      cases g with
      | mk t p mp ls mls poly mpoly gs =>
        rcases hwf with ⟨rfl, rfl, rfl, rfl, rfl, rfl, rfl⟩ |
          ⟨rfl, rfl, rfl, rfl, rfl, rfl, rfl⟩ | ⟨rfl, rfl, rfl, rfl, rfl, rfl, rfl⟩ |
          ⟨rfl, rfl, rfl, rfl, rfl, rfl, rfl⟩ | ⟨rfl, rfl, rfl, rfl, rfl, rfl, rfl⟩ |
          ⟨rfl, rfl, rfl, rfl, rfl, rfl, rfl⟩ |
          ⟨rfl, rfl, rfl, rfl, rfl, rfl, rfl, hwfl⟩
        · -- Point
          rw [decodeGeometryF_succ]
          rw [decodeStep_point (decodeGeometriesF f) emptyGeometry
            (toPureGeometry (Geometry.mk "Point" p [] [] [] [] [] .nil)) rfl]
          rw [show lookupKey (toPureGeometry (Geometry.mk "Point" p [] [] [] [] [] .nil))
            "coordinates" = some (encodeCoords1 p) from rfl]
          rw [decodePosition_encode]
          rfl
        · -- MultiPoint
          rw [decodeGeometryF_succ]
          rw [decodeStep_multiPoint (decodeGeometriesF f) emptyGeometry
            (toPureGeometry (Geometry.mk "MultiPoint" [] mp [] [] [] [] .nil)) rfl]
          rw [show lookupKey (toPureGeometry (Geometry.mk "MultiPoint" [] mp [] [] [] [] .nil))
            "coordinates" = some (encodeCoords2 mp) from rfl]
          rw [decodePositionSet_encode]
          rfl
        · -- LineString
          rw [decodeGeometryF_succ]
          rw [decodeStep_lineString (decodeGeometriesF f) emptyGeometry
            (toPureGeometry (Geometry.mk "LineString" [] [] ls [] [] [] .nil)) rfl]
          rw [show lookupKey (toPureGeometry (Geometry.mk "LineString" [] [] ls [] [] [] .nil))
            "coordinates" = some (encodeCoords2 ls) from rfl]
          rw [decodePositionSet_encode]
          rfl
        · -- MultiLineString
          rw [decodeGeometryF_succ]
          rw [decodeStep_multiLineString (decodeGeometriesF f) emptyGeometry
            (toPureGeometry (Geometry.mk "MultiLineString" [] [] [] mls [] [] .nil)) rfl]
          rw [show lookupKey
            (toPureGeometry (Geometry.mk "MultiLineString" [] [] [] mls [] [] .nil))
            "coordinates" = some (encodeCoords3 mls) from rfl]
          rw [decodePathSet_encode]
          rfl
        · -- Polygon
          rw [decodeGeometryF_succ]
          rw [decodeStep_polygon (decodeGeometriesF f) emptyGeometry
            (toPureGeometry (Geometry.mk "Polygon" [] [] [] [] poly [] .nil)) rfl]
          rw [show lookupKey (toPureGeometry (Geometry.mk "Polygon" [] [] [] [] poly [] .nil))
            "coordinates" = some (encodeCoords3 poly) from rfl]
          rw [decodePathSet_encode]
          rfl
        · -- MultiPolygon
          rw [decodeGeometryF_succ]
          rw [decodeStep_multiPolygon (decodeGeometriesF f) emptyGeometry
            (toPureGeometry (Geometry.mk "MultiPolygon" [] [] [] [] [] mpoly .nil)) rfl]
          rw [show lookupKey
            (toPureGeometry (Geometry.mk "MultiPolygon" [] [] [] [] [] mpoly .nil))
            "coordinates" = some (encodeCoords4 mpoly) from rfl]
          rw [decodePolygonSet_encode]
          rfl
        · -- GeometryCollection
          rw [decodeGeometryF_succ]
          rw [decodeStep_collection (decodeGeometriesF f) emptyGeometry
            (toPureGeometry (Geometry.mk "GeometryCollection" [] [] [] [] [] [] gs)) rfl]
          rw [show lookupKey
            (toPureGeometry (Geometry.mk "GeometryCollection" [] [] [] [] [] [] gs))
            "geometries" = some (.vArr (encodeGeometryList gs)) from rfl]
          have hb : BArr.size (encodeGeometryList gs) + 1 < f := by
            have : BDoc.size
                (toPureGeometry (Geometry.mk "GeometryCollection" [] [] [] [] [] [] gs))
                = BArr.size (encodeGeometryList gs) + 5 := by
              simp [toPureGeometry, mkDoc, BDoc.size, BVal.size]
              omega
            omega
          rw [ihD gs hwfl hb]
          rfl
    · intro gs hwfl hbound
      simp only [decodeGeometriesF]
      exact ihE _ gs hwfl (by omega)
    · intro orig gs hwfl hbound
      cases gs with
      | nil => rfl
      | cons g rest =>
        have hw : WellFormed g ∧ WellFormedList rest := hwfl
        have hsz : BVal.size (.vDoc (toPureGeometry g)) +
            BArr.size (encodeGeometryList rest) + 1 < f + 1 := by
          simpa [encodeGeometryList, BArr.size] using hbound
        have h1 : BDoc.size (toPureGeometry g) < f := by
          have := BArr.arr_size_pos (encodeGeometryList rest)
          simp [BVal.size] at hsz
          omega
        have h2 : BArr.size (encodeGeometryList rest) < f := by
          have := BDoc.doc_size_pos (toPureGeometry g)
          simp [BVal.size] at hsz
          omega
        show decodeGeomElemsF (f + 1) orig
          (.cons (.vDoc (toPureGeometry g)) (encodeGeometryList rest)) = _
        simp only [decodeGeomElemsF]
        rw [ihG g hw.1 h1, ihE orig rest hw.2 h2]

/-- C1: for every well-formed Geometry value (the tag is one of the seven
recognized tags, only the payload selected by the tag is populated, and
GeometryCollection children are recursively well-formed), decoding the
document produced by encoding the value yields the value back exactly —
equality of the full structure, so all sequence orders, including the
order of GeometryCollection children, are preserved. -/
theorem decode_encode_roundtrip (g : Geometry) (h : WellFormed g) :
    decodeGeometry emptyGeometry (toPureGeometry g) = (g, none) :=
  decodeGeometry_eq_of_F
    ((roundtripF (BDoc.size (toPureGeometry g) + 1)).1 g h (by omega))


/-! ### Nesting depth lemmas -/

theorem strictDepth_zero {v : BVal} (h : StrictDepth 0 v) : isNumVal v = true := by
  cases h
  assumption

theorem strictDepth_succ {n : Nat} {v : BVal} (h : StrictDepth (n + 1) v) :
    ∃ l : BArr, v = .vArr l ∧ l ≠ BArr.nil ∧ ∀ x ∈ BArr.toList l, StrictDepth n x := by
  cases h with
  | arr m l hne hall => exact ⟨l, rfl, hne, hall⟩

theorem decodePathList_ok : ∀ b : BArr,
    (∀ s ∈ b.toList, ∃ q, decodePositionSet (some s) = .ok q) →
    ∃ ps, decodePathList b = .ok ps
  | .nil, _ => ⟨[], rfl⟩
  | .cons s rest, h => by
    obtain ⟨q, hq⟩ := h s (by simp [BArr.toList])
    obtain ⟨qs, hqs⟩ := decodePathList_ok rest (fun x hx => h x (by simp [BArr.toList, hx]))
    exact ⟨q :: qs, by simp [decodePathList, hq, hqs, Except.map]⟩

theorem decodePolyList_ok : ∀ b : BArr,
    (∀ s ∈ b.toList, ∃ q, decodePathSet (some s) = .ok q) →
    ∃ ps, decodePolyList b = .ok ps
  | .nil, _ => ⟨[], rfl⟩
  | .cons s rest, h => by
    obtain ⟨q, hq⟩ := h s (by simp [BArr.toList])
    obtain ⟨qs, hqs⟩ := decodePolyList_ok rest (fun x hx => h x (by simp [BArr.toList, hx]))
    exact ⟨q :: qs, by simp [decodePolyList, hq, hqs, Except.map]⟩

theorem decodePosition_depth (d : Nat) (v : BVal) (h : StrictDepth d v) :
    (d = 1 → ∃ p, decodePosition (some v) = .ok p)
    ∧ (d = 0 → decodePosition (some v) = .error (.invalidPosition (some v)))
    ∧ (2 ≤ d → ∃ w, decodePosition (some v) = .error (.invalidCoordinate w)) := by
  refine ⟨?_, ?_, ?_⟩
  · rintro rfl
    obtain ⟨l, rfl, hne, hall⟩ := strictDepth_succ h
    obtain ⟨qs, hqs⟩ := decodeCoordList_ok l (fun c hc => strictDepth_zero (hall c hc))
    exact ⟨qs, by simpa [decodePosition] using hqs⟩
  · rintro rfl
    have hnum := strictDepth_zero h
    cases v <;> simp [isNumVal] at hnum <;> simp [decodePosition]
  · intro hd
    obtain ⟨d', rfl⟩ : ∃ d', d = d' + 2 := ⟨d - 2, by omega⟩
    obtain ⟨l, rfl, hne, hall⟩ := strictDepth_succ h
    cases l with
    | nil => exact absurd rfl hne
    | cons x xs =>
      obtain ⟨lx, rfl, _, _⟩ := strictDepth_succ (hall x (by simp [BArr.toList]))
      exact ⟨.vArr lx, by simp [decodePosition, decodeCoordList, decodeCoordinate]⟩

theorem decodePositionSet_depth (d : Nat) (v : BVal) (h : StrictDepth d v) :
    (d = 2 → ∃ ps, decodePositionSet (some v) = .ok ps)
    ∧ (d = 0 → decodePositionSet (some v) = .error (.invalidPositionSet (some v)))
    ∧ (d = 1 → ∃ w, decodePositionSet (some v) = .error (.invalidPosition w))
    ∧ (3 ≤ d → ∃ w, decodePositionSet (some v) = .error (.invalidCoordinate w)) := by
  refine ⟨?_, ?_, ?_, ?_⟩
  · rintro rfl
    obtain ⟨l, rfl, hne, hall⟩ := strictDepth_succ h
    obtain ⟨ps, hps⟩ := decodePosList_ok l
      (fun p hp => (decodePosition_depth 1 p (hall p hp)).1 rfl)
    exact ⟨ps, by simpa [decodePositionSet] using hps⟩
  · rintro rfl
    have hnum := strictDepth_zero h
    cases v <;> simp [isNumVal] at hnum <;> simp [decodePositionSet]
  · rintro rfl
    obtain ⟨l, rfl, hne, hall⟩ := strictDepth_succ h
    cases l with
    | nil => exact absurd rfl hne
    | cons x xs =>
      have hx := (decodePosition_depth 0 x (hall x (by simp [BArr.toList]))).2.1 rfl
      exact ⟨some x, by simp [decodePositionSet, decodePosList, hx]⟩
  · intro hd
    obtain ⟨d', rfl⟩ : ∃ d', d = d' + 3 := ⟨d - 3, by omega⟩
    obtain ⟨l, rfl, hne, hall⟩ := strictDepth_succ h
    cases l with
    | nil => exact absurd rfl hne
    | cons x xs =>
      obtain ⟨w, hw⟩ := (decodePosition_depth (d' + 2) x
        (hall x (by simp [BArr.toList]))).2.2 (by omega)
      exact ⟨w, by simp [decodePositionSet, decodePosList, hw]⟩

theorem decodePathSet_depth (d : Nat) (v : BVal) (h : StrictDepth d v) :
    (d = 3 → ∃ ps, decodePathSet (some v) = .ok ps)
    ∧ (d = 0 → decodePathSet (some v) = .error (.invalidPathSet (some v)))
    ∧ (d = 1 → ∃ w, decodePathSet (some v) = .error (.invalidPositionSet w))
    ∧ (d = 2 → ∃ w, decodePathSet (some v) = .error (.invalidPosition w))
    ∧ (4 ≤ d → ∃ w, decodePathSet (some v) = .error (.invalidCoordinate w)) := by
  refine ⟨?_, ?_, ?_, ?_, ?_⟩
  · rintro rfl
    obtain ⟨l, rfl, hne, hall⟩ := strictDepth_succ h
    obtain ⟨ps, hps⟩ := decodePathList_ok l
      (fun p hp => (decodePositionSet_depth 2 p (hall p hp)).1 rfl)
    exact ⟨ps, by simpa [decodePathSet] using hps⟩
  · rintro rfl
    have hnum := strictDepth_zero h
    cases v <;> simp [isNumVal] at hnum <;> simp [decodePathSet]
  · rintro rfl
    obtain ⟨l, rfl, hne, hall⟩ := strictDepth_succ h
    cases l with
    | nil => exact absurd rfl hne
    | cons x xs =>
      have hx := (decodePositionSet_depth 0 x (hall x (by simp [BArr.toList]))).2.1 rfl
      exact ⟨some x, by simp [decodePathSet, decodePathList, hx]⟩
  · rintro rfl
    obtain ⟨l, rfl, hne, hall⟩ := strictDepth_succ h
    cases l with
    | nil => exact absurd rfl hne
    | cons x xs =>
      obtain ⟨w, hw⟩ := (decodePositionSet_depth 1 x (hall x (by simp [BArr.toList]))).2.2.1 rfl
      exact ⟨w, by simp [decodePathSet, decodePathList, hw]⟩
  · intro hd
    obtain ⟨d', rfl⟩ : ∃ d', d = d' + 4 := ⟨d - 4, by omega⟩
    obtain ⟨l, rfl, hne, hall⟩ := strictDepth_succ h
    cases l with
    | nil => exact absurd rfl hne
    | cons x xs =>
      obtain ⟨w, hw⟩ := (decodePositionSet_depth (d' + 3) x
        (hall x (by simp [BArr.toList]))).2.2.2 (by omega)
      exact ⟨w, by simp [decodePathSet, decodePathList, hw]⟩

theorem decodePolygonSet_depth (d : Nat) (v : BVal) (h : StrictDepth d v) :
    (d = 4 → ∃ ps, decodePolygonSet (some v) = .ok ps)
    ∧ (d = 0 → decodePolygonSet (some v) = .error (.invalidPolygonSet (some v)))
    ∧ (d = 1 → ∃ w, decodePolygonSet (some v) = .error (.invalidPathSet w))
    ∧ (d = 2 → ∃ w, decodePolygonSet (some v) = .error (.invalidPositionSet w))
    ∧ (d = 3 → ∃ w, decodePolygonSet (some v) = .error (.invalidPosition w))
    ∧ (5 ≤ d → ∃ w, decodePolygonSet (some v) = .error (.invalidCoordinate w)) := by
  refine ⟨?_, ?_, ?_, ?_, ?_, ?_⟩
  · rintro rfl
    obtain ⟨l, rfl, hne, hall⟩ := strictDepth_succ h
    obtain ⟨ps, hps⟩ := decodePolyList_ok l
      (fun p hp => (decodePathSet_depth 3 p (hall p hp)).1 rfl)
    exact ⟨ps, by simpa [decodePolygonSet] using hps⟩
  · rintro rfl
    have hnum := strictDepth_zero h
    cases v <;> simp [isNumVal] at hnum <;> simp [decodePolygonSet]
  · rintro rfl
    obtain ⟨l, rfl, hne, hall⟩ := strictDepth_succ h
    cases l with
    | nil => exact absurd rfl hne
    | cons x xs =>
      have hx := (decodePathSet_depth 0 x (hall x (by simp [BArr.toList]))).2.1 rfl
      exact ⟨some x, by simp [decodePolygonSet, decodePolyList, hx]⟩
  · rintro rfl
    obtain ⟨l, rfl, hne, hall⟩ := strictDepth_succ h
    cases l with
    | nil => exact absurd rfl hne
    | cons x xs =>
      obtain ⟨w, hw⟩ := (decodePathSet_depth 1 x (hall x (by simp [BArr.toList]))).2.2.1 rfl
      exact ⟨w, by simp [decodePolygonSet, decodePolyList, hw]⟩
  · rintro rfl
    obtain ⟨l, rfl, hne, hall⟩ := strictDepth_succ h
    cases l with
    | nil => exact absurd rfl hne
    | cons x xs =>
      obtain ⟨w, hw⟩ := (decodePathSet_depth 2 x (hall x (by simp [BArr.toList]))).2.2.2.1 rfl
      exact ⟨w, by simp [decodePolygonSet, decodePolyList, hw]⟩
  · intro hd
    obtain ⟨d', rfl⟩ : ∃ d', d = d' + 5 := ⟨d - 5, by omega⟩
    obtain ⟨l, rfl, hne, hall⟩ := strictDepth_succ h
    cases l with
    | nil => exact absurd rfl hne
    | cons x xs =>
      obtain ⟨w, hw⟩ := (decodePathSet_depth (d' + 4) x
        (hall x (by simp [BArr.toList]))).2.2.2.2 (by omega)
      exact ⟨w, by simp [decodePolygonSet, decodePolyList, hw]⟩


/-! ### Helpers for the claims -/

theorem mkArr_toList : ∀ l : List BVal, (mkArr l).toList = l
  | [] => rfl
  | v :: vs => by simp [mkArr, BArr.toList, mkArr_toList vs]

theorem decode_payload_error_not_type (g : Geometry) (obj : BDoc) (s : String)
    (e : DecodeError) (hty : lookupKey obj "type" = some (.vStr s))
    (hs : s ≠ "GeometryCollection") (he : (decodeGeometry g obj).2 = some e) :
    e ≠ .missingType ∧ e ≠ .invalidType := by
  have hF : decodeGeometryF (BDoc.size obj + 1) g obj = some (decodeGeometry g obj) :=
    decodeGeometryF_eq_decode g obj (by omega)
  rw [decodeGeometryF_succ] at hF
  by_cases h1 : s = "Point"
  · subst h1
    rw [decodeStep_point _ _ _ hty] at hF
    cases hd : decodePosition (lookupKey obj "coordinates") with
    | ok p => rw [hd] at hF; simp at hF; rw [← hF] at he; simp at he
    | error e0 =>
      rw [hd] at hF
      simp at hF
      rw [← hF] at he
      simp at he
      subst he
      exact decodePosition_ne_typeErr hd
  by_cases h2 : s = "MultiPoint"
  · subst h2
    rw [decodeStep_multiPoint _ _ _ hty] at hF
    cases hd : decodePositionSet (lookupKey obj "coordinates") with
    | ok p => rw [hd] at hF; simp at hF; rw [← hF] at he; simp at he
    | error e0 =>
      rw [hd] at hF
      simp at hF
      rw [← hF] at he
      simp at he
      subst he
      exact decodePositionSet_ne_typeErr hd
  by_cases h3 : s = "LineString"
  · subst h3
    rw [decodeStep_lineString _ _ _ hty] at hF
    cases hd : decodePositionSet (lookupKey obj "coordinates") with
    | ok p => rw [hd] at hF; simp at hF; rw [← hF] at he; simp at he
    | error e0 =>
      rw [hd] at hF
      simp at hF
      rw [← hF] at he
      simp at he
      subst he
      exact decodePositionSet_ne_typeErr hd
  by_cases h4 : s = "MultiLineString"
  · subst h4
    rw [decodeStep_multiLineString _ _ _ hty] at hF
    cases hd : decodePathSet (lookupKey obj "coordinates") with
    | ok p => rw [hd] at hF; simp at hF; rw [← hF] at he; simp at he
    | error e0 =>
      rw [hd] at hF
      simp at hF
      rw [← hF] at he
      simp at he
      subst he
      exact decodePathSet_ne_typeErr hd
  by_cases h5 : s = "Polygon"
  · subst h5
    rw [decodeStep_polygon _ _ _ hty] at hF
    cases hd : decodePathSet (lookupKey obj "coordinates") with
    | ok p => rw [hd] at hF; simp at hF; rw [← hF] at he; simp at he
    | error e0 =>
      rw [hd] at hF
      simp at hF
      rw [← hF] at he
      simp at he
      subst he
      exact decodePathSet_ne_typeErr hd
  by_cases h6 : s = "MultiPolygon"
  · subst h6
    rw [decodeStep_multiPolygon _ _ _ hty] at hF
    cases hd : decodePolygonSet (lookupKey obj "coordinates") with
    | ok p => rw [hd] at hF; simp at hF; rw [← hF] at he; simp at he
    | error e0 =>
      rw [hd] at hF
      simp at hF
      rw [← hF] at he
      simp at he
      subst he
      exact decodePolygonSet_ne_typeErr hd
  · rw [decodeStep_unknown _ _ _ s hty h1 h2 h3 h4 h5 h6 hs] at hF
    simp at hF
    rw [← hF] at he
    simp at he


theorem decodeGeomElemsF_break : ∀ (fuel : Nat) (orig : BVal) (b : BArr) (pre : List BVal)
    (v : BVal) (post : List BVal), BArr.size b < fuel → BArr.toList b = pre ++ v :: post →
    (∀ m ∈ pre, ∃ d, m = .vDoc d ∧ (decodeGeometry emptyGeometry d).2 = none) →
    (∀ d, v ≠ .vDoc d) →
    decodeGeomElemsF fuel orig b = some (.error (.invalidGeometrySet (some orig)))
  | _, _, .nil, pre, v, post, _, hsplit, _, _ => by simp [BArr.toList] at hsplit
  | fuel, orig, .cons x xs, pre, v, post, hsz, hsplit, hpre, hv => by
    obtain ⟨f, rfl⟩ : ∃ f, fuel = f + 1 :=
      ⟨fuel - 1, by have := BArr.arr_size_pos (BArr.cons x xs); omega⟩
    simp only [BArr.toList] at hsplit
    cases pre with
    | nil =>
      simp at hsplit
      obtain ⟨rfl, _⟩ := hsplit
      simp only [decodeGeomElemsF]
    | cons p0 pre' =>
      simp at hsplit
      obtain ⟨rfl, hsplit'⟩ := hsplit
      obtain ⟨d, rfl, hdec⟩ := hpre x (by simp)
      have hsd : BDoc.size d < f := by
        have := BArr.arr_size_pos xs
        simp [BArr.size, BVal.size] at hsz
        omega
      have hsx : BArr.size xs < f := by
        have := BDoc.doc_size_pos d
        simp [BArr.size, BVal.size] at hsz
        omega
      have hg : decodeGeometry emptyGeometry d = ((decodeGeometry emptyGeometry d).1, none) :=
        Prod.ext rfl hdec
      have ihx := decodeGeomElemsF_break f orig xs pre' v post hsx hsplit'
        (fun y hy => hpre y (by simp [hy])) hv
      simp only [decodeGeomElemsF]
      rw [decodeGeometryF_eq_decode emptyGeometry d hsd, hg, ihx]

theorem decodeGeomElemsF_inner_error : ∀ (fuel : Nat) (orig : BVal) (b : BArr)
    (pre : List BVal) (dv : BDoc) (post : List BVal) (e : DecodeError),
    BArr.size b < fuel → BArr.toList b = pre ++ .vDoc dv :: post →
    (∀ m ∈ pre, ∃ d, m = .vDoc d ∧ (decodeGeometry emptyGeometry d).2 = none) →
    (decodeGeometry emptyGeometry dv).2 = some e →
    decodeGeomElemsF fuel orig b = some (.error e)
  | _, _, .nil, pre, dv, post, e, _, hsplit, _, _ => by simp [BArr.toList] at hsplit
  | fuel, orig, .cons x xs, pre, dv, post, e, hsz, hsplit, hpre, he => by
    obtain ⟨f, rfl⟩ : ∃ f, fuel = f + 1 :=
      ⟨fuel - 1, by have := BArr.arr_size_pos (BArr.cons x xs); omega⟩
    simp only [BArr.toList] at hsplit
    cases pre with
    | nil =>
      simp at hsplit
      obtain ⟨rfl, _⟩ := hsplit
      have hsd : BDoc.size dv < f := by
        have := BArr.arr_size_pos xs
        simp [BArr.size, BVal.size] at hsz
        omega
      have hg : decodeGeometry emptyGeometry dv = ((decodeGeometry emptyGeometry dv).1, some e) :=
        Prod.ext rfl he
      simp only [decodeGeomElemsF]
      rw [decodeGeometryF_eq_decode emptyGeometry dv hsd, hg]
    | cons p0 pre' =>
      simp at hsplit
      obtain ⟨rfl, hsplit'⟩ := hsplit
      obtain ⟨d, rfl, hdec⟩ := hpre x (by simp)
      have hsd : BDoc.size d < f := by
        have := BArr.arr_size_pos xs
        simp [BArr.size, BVal.size] at hsz
        omega
      have hsx : BArr.size xs < f := by
        have := BDoc.doc_size_pos d
        simp [BArr.size, BVal.size] at hsz
        omega
      have hg : decodeGeometry emptyGeometry d = ((decodeGeometry emptyGeometry d).1, none) :=
        Prod.ext rfl hdec
      have ihx := decodeGeomElemsF_inner_error f orig xs pre' dv post e hsx hsplit'
        (fun y hy => hpre y (by simp [hy])) he
      simp only [decodeGeomElemsF]
      rw [decodeGeometryF_eq_decode emptyGeometry d hsd, hg, ihx]

theorem decodeGeomElemsF_ok_of_all : ∀ (fuel : Nat) (orig : BVal) (b : BArr),
    BArr.size b < fuel →
    (∀ m ∈ b.toList, ∃ d, m = .vDoc d ∧ (decodeGeometry emptyGeometry d).2 = none) →
    ∃ gs : GeometryList, decodeGeomElemsF fuel orig b = some (.ok gs) ∧
      gs.toList = b.toList.map decodeDocChild
  | fuel, _, .nil, hsz, _ => by
    obtain ⟨f, rfl⟩ : ∃ f, fuel = f + 1 := ⟨fuel - 1, by simp [BArr.size] at hsz; omega⟩
    exact ⟨.nil, rfl, rfl⟩
  | fuel, orig, .cons x xs, hsz, hall => by
    obtain ⟨f, rfl⟩ : ∃ f, fuel = f + 1 :=
      ⟨fuel - 1, by have := BArr.arr_size_pos (BArr.cons x xs); omega⟩
    obtain ⟨d, rfl, hdec⟩ := hall x (by simp [BArr.toList])
    have hsd : BDoc.size d < f := by
      have := BArr.arr_size_pos xs
      simp [BArr.size, BVal.size] at hsz
      omega
    have hsx : BArr.size xs < f := by
      have := BDoc.doc_size_pos d
      simp [BArr.size, BVal.size] at hsz
      omega
    obtain ⟨gs, hgs, hmap⟩ := decodeGeomElemsF_ok_of_all f orig xs hsx
      (fun m hm => hall m (by simp [BArr.toList, hm]))
    have hg : decodeGeometry emptyGeometry d = ((decodeGeometry emptyGeometry d).1, none) :=
      Prod.ext rfl hdec
    refine ⟨.cons (decodeGeometry emptyGeometry d).1 gs, ?_, ?_⟩
    · simp only [decodeGeomElemsF]
      rw [decodeGeometryF_eq_decode emptyGeometry d hsd, hg, hgs]
    · simp [GeometryList.toList, BArr.toList, decodeDocChild, hmap]

theorem decodeGeomElemsF_ok_inv : ∀ (fuel : Nat) (orig : BVal) (b : BArr)
    (gs : GeometryList), BArr.size b < fuel →
    decodeGeomElemsF fuel orig b = some (.ok gs) →
    (∀ m ∈ b.toList, ∃ d, m = .vDoc d ∧ (decodeGeometry emptyGeometry d).2 = none)
    ∧ gs.toList = b.toList.map decodeDocChild
  | fuel, _, .nil, gs, hsz, hok => by
    obtain ⟨f, rfl⟩ : ∃ f, fuel = f + 1 := ⟨fuel - 1, by simp [BArr.size] at hsz; omega⟩
    simp only [decodeGeomElemsF] at hok
    have hgs : GeometryList.nil = gs := by
      have := Option.some.inj hok
      exact Except.ok.inj this
    rw [← hgs]
    exact ⟨by simp [BArr.toList], by simp [BArr.toList, GeometryList.toList]⟩
  | fuel, orig, .cons x xs, gs, hsz, hok => by
    obtain ⟨f, rfl⟩ : ∃ f, fuel = f + 1 :=
      ⟨fuel - 1, by have := BArr.arr_size_pos (BArr.cons x xs); omega⟩
    simp only [decodeGeomElemsF] at hok
    rcases x with q | i | i | i | s | b2 | _ | a | d <;> try simp at hok
    have hsd : BDoc.size d < f := by
      have := BArr.arr_size_pos xs
      simp [BArr.size, BVal.size] at hsz
      omega
    have hsx : BArr.size xs < f := by
      have := BDoc.doc_size_pos d
      simp [BArr.size, BVal.size] at hsz
      omega
    rw [decodeGeometryF_eq_decode emptyGeometry d hsd] at hok
    rcases hX : decodeGeometry emptyGeometry d with ⟨g1, err⟩
    rw [hX] at hok
    cases err with
    | some e => simp at hok
    | none =>
      cases hrest : decodeGeomElemsF f orig xs with
      | none => rw [hrest] at hok; simp at hok
      | some res =>
        rw [hrest] at hok
        cases res with
        | error e => simp at hok
        | ok gs' =>
          have hcons : GeometryList.cons g1 gs' = gs := by
            have := Option.some.inj hok
            exact Except.ok.inj this
          obtain ⟨hall', hmap'⟩ := decodeGeomElemsF_ok_inv f orig xs gs' hsx hrest
          constructor
          · intro m hm
            simp [BArr.toList] at hm
            rcases hm with rfl | hm
            · exact ⟨d, rfl, by rw [hX]⟩
            · exact hall' m hm
          · rw [← hcons]
            simp [GeometryList.toList, BArr.toList, decodeDocChild, hmap', hX]


theorem decode_encode_roundtrip_witness :
    WellFormed (Geometry.mk "GeometryCollection" [] [] [] [] [] []
      (.cons (Geometry.mk "Point" [1, 2] [] [] [] [] [] .nil)
        (.cons (Geometry.mk "MultiLineString" [] [] [] [[[1, 2], [3, 4]], [[5, 6], [7, 8]]]
          [] [] .nil) .nil))) ∧
    decodeGeometry emptyGeometry (toPureGeometry
      (Geometry.mk "GeometryCollection" [] [] [] [] [] []
        (.cons (Geometry.mk "Point" [1, 2] [] [] [] [] [] .nil)
          (.cons (Geometry.mk "MultiLineString" [] [] [] [[[1, 2], [3, 4]], [[5, 6], [7, 8]]]
            [] [] .nil) .nil))))
      = (Geometry.mk "GeometryCollection" [] [] [] [] [] []
          (.cons (Geometry.mk "Point" [1, 2] [] [] [] [] [] .nil)
            (.cons (Geometry.mk "MultiLineString" [] [] [] [[[1, 2], [3, 4]], [[5, 6], [7, 8]]]
              [] [] .nil) .nil)), none) := by
  have hwf : WellFormed (Geometry.mk "GeometryCollection" [] [] [] [] [] []
      (.cons (Geometry.mk "Point" [1, 2] [] [] [] [] [] .nil)
        (.cons (Geometry.mk "MultiLineString" [] [] [] [[[1, 2], [3, 4]], [[5, 6], [7, 8]]]
          [] [] .nil) .nil))) := by
    simp [WellFormed, WellFormedList]
  exact ⟨hwf, decode_encode_roundtrip _ hwf⟩


/-- C2 counterexample: the claim says decode fails with MissingType exactly
when the document has no `type` key.  The document
`{"type":"GeometryCollection","geometries":[{}]}` has a `type` key, yet
decode fails with MissingType, because `decodeGeometries` propagates the
inner error of the child document `{}` verbatim. -/
theorem missingType_despite_type_key :
    lookupKey (mkDoc [("type", .vStr "GeometryCollection"),
        ("geometries", .vArr (mkArr [.vDoc .nil]))]) "type"
      = some (.vStr "GeometryCollection") ∧
    (decodeGeometry emptyGeometry (mkDoc [("type", .vStr "GeometryCollection"),
        ("geometries", .vArr (mkArr [.vDoc .nil]))])).2 = some .missingType :=
  ⟨rfl, rfl⟩

/-- C2 (amended): decode fails with MissingType if the document has no
`type` key, and with InvalidType if the `type` key holds a non-string; when
`type` holds a string, decode proceeds to the payload, and the only way a
MissingType or InvalidType error can still surface is propagation out of a
GeometryCollection payload (for any other tag the payload errors are never
of these two kinds). -/
theorem decode_type_error_characterization (g : Geometry) (obj : BDoc) :
    (lookupKey obj "type" = none → decodeGeometry g obj = (g, some .missingType))
    ∧ (∀ v, lookupKey obj "type" = some v → (∀ s, v ≠ .vStr s) →
        decodeGeometry g obj = (g, some .invalidType))
    ∧ (∀ s e, lookupKey obj "type" = some (.vStr s) → s ≠ "GeometryCollection" →
        (decodeGeometry g obj).2 = some e →
        e ≠ .missingType ∧ e ≠ .invalidType) := by
  refine ⟨?_, ?_, ?_⟩
  · intro h
    exact decodeGeometry_step (decodeStep_missing _ g obj h)
  · intro v h hv
    exact decodeGeometry_step (decodeStep_notString _ g obj v h hv)
  · intro s e hty hs he
    exact decode_payload_error_not_type g obj s e hty hs he

theorem decode_type_error_characterization_witness :
    decodeGeometry emptyGeometry (mkDoc [("coordinates", .vArr (mkArr [.vInt 1, .vInt 2]))])
      = (emptyGeometry, some .missingType) :=
  (decode_type_error_characterization emptyGeometry
    (mkDoc [("coordinates", .vArr (mkArr [.vInt 1, .vInt 2]))])).1 rfl

/-- C5: a document whose `type` key holds a string that is none of the
seven recognized tags decodes successfully: the tag string is stored in
the `Type` field and every payload field is left empty, whatever the
`coordinates` or `geometries` values contain. -/
theorem decode_unknown_tag_passthrough (obj : BDoc) (s : String)
    (hty : lookupKey obj "type" = some (.vStr s)) (hs : s ∉ recognizedTags) :
    decodeGeometry emptyGeometry obj = (Geometry.mk s [] [] [] [] [] [] .nil, none) := by
  simp [recognizedTags] at hs
  apply decodeGeometry_step
  rw [decodeStep_unknown _ _ _ s hty hs.1 hs.2.1 hs.2.2.1 hs.2.2.2.1 hs.2.2.2.2.1
    hs.2.2.2.2.2.1 hs.2.2.2.2.2.2]
  rfl

theorem decode_unknown_tag_passthrough_witness :
    "Feature" ∉ recognizedTags ∧
    decodeGeometry emptyGeometry
        (mkDoc [("type", .vStr "Feature"), ("coordinates", .vStr "junk"),
          ("geometries", .vInt 7)])
      = (Geometry.mk "Feature" [] [] [] [] [] [] .nil, none) := by
  have hs : "Feature" ∉ recognizedTags := by simp [recognizedTags]
  exact ⟨hs, decode_unknown_tag_passthrough _ "Feature" rfl hs⟩

/-- C9 counterexample: the claim says no partial Geometry is ever left
behind on failure.  Decoding `{"type":"Point","coordinates":"junk"}` into a
fresh receiver fails, yet the receiver's `Type` tag has been assigned
"Point" from the document (the Go code sets `g.Type` before decoding the
payload and does not roll it back). -/
theorem decode_failure_sets_type_tag :
    (decodeGeometry emptyGeometry
        (mkDoc [("type", .vStr "Point"), ("coordinates", .vStr "junk")])).2
      = some (.invalidPosition (some (.vStr "junk"))) ∧
    (decodeGeometry emptyGeometry
        (mkDoc [("type", .vStr "Point"), ("coordinates", .vStr "junk")])).1.type
      = "Point" ∧
    emptyGeometry.type = "" :=
  ⟨rfl, rfl, rfl⟩

/-- C9 (amended): the value-returning decode API never returns a partial
Geometry: `UnmarshalGeometry` returns nothing whenever decoding fails, and
whatever it returns decoded without error; but the in-place decode does
mutate the receiver's `Type` tag before the payload is decoded (see the
counterexample), so a failed decode leaves that tag behind on the
receiver. -/
theorem unmarshal_no_partial_on_failure (obj : BDoc) :
    (∀ e, (decodeGeometry emptyGeometry obj).2 = some e → UnmarshalGeometry obj = none)
    ∧ (∀ g, UnmarshalGeometry obj = some g → decodeGeometry emptyGeometry obj = (g, none)) := by
  constructor
  · intro e he
    unfold UnmarshalGeometry
    rcases hX : decodeGeometry emptyGeometry obj with ⟨g1, err⟩
    rw [hX] at he
    simp at he
    rw [he]
  · intro g hg
    unfold UnmarshalGeometry at hg
    rcases hX : decodeGeometry emptyGeometry obj with ⟨g1, err⟩
    rw [hX] at hg
    cases err with
    | none => simp at hg; rw [hg]
    | some e => simp at hg

theorem unmarshal_no_partial_on_failure_witness :
    UnmarshalGeometry (mkDoc [("type", .vStr "Point"), ("coordinates", .vStr "junk")])
      = none :=
  (unmarshal_no_partial_on_failure
    (mkDoc [("type", .vStr "Point"), ("coordinates", .vStr "junk")])).1
    (.invalidPosition (some (.vStr "junk"))) rfl

/-- C10: a document with a recognized coordinate-bearing `type` but no
`coordinates` key fails to decode: the absent value (Go's nil interface)
is handed to the shape extractor for the tag, fails its not-a-sequence
check, and the error reports the absent value; a Point document without
`coordinates` fails with the "not a valid position" (InvalidPosition)
error. -/
theorem decode_missing_coordinates (obj : BDoc) (s : String)
    (hty : lookupKey obj "type" = some (.vStr s))
    (hco : lookupKey obj "coordinates" = none) :
    (s = "Point" → decodeGeometry emptyGeometry obj
        = (emptyGeometry.setType s, some (.invalidPosition none)))
    ∧ ((s = "MultiPoint" ∨ s = "LineString") → decodeGeometry emptyGeometry obj
        = (emptyGeometry.setType s, some (.invalidPositionSet none)))
    ∧ ((s = "MultiLineString" ∨ s = "Polygon") → decodeGeometry emptyGeometry obj
        = (emptyGeometry.setType s, some (.invalidPathSet none)))
    ∧ (s = "MultiPolygon" → decodeGeometry emptyGeometry obj
        = (emptyGeometry.setType s, some (.invalidPolygonSet none))) := by
  refine ⟨?_, ?_, ?_, ?_⟩
  · rintro rfl
    apply decodeGeometry_step
    rw [decodeStep_point _ _ _ hty, hco]
    rfl
  · rintro (rfl | rfl)
    · apply decodeGeometry_step
      rw [decodeStep_multiPoint _ _ _ hty, hco]
      rfl
    · apply decodeGeometry_step
      rw [decodeStep_lineString _ _ _ hty, hco]
      rfl
  · rintro (rfl | rfl)
    · apply decodeGeometry_step
      rw [decodeStep_multiLineString _ _ _ hty, hco]
      rfl
    · apply decodeGeometry_step
      rw [decodeStep_polygon _ _ _ hty, hco]
      rfl
  · rintro rfl
    apply decodeGeometry_step
    rw [decodeStep_multiPolygon _ _ _ hty, hco]
    rfl

theorem decode_missing_coordinates_witness :
    decodeGeometry emptyGeometry (mkDoc [("type", .vStr "Point")])
      = (emptyGeometry.setType "Point", some (.invalidPosition none)) :=
  (decode_missing_coordinates (mkDoc [("type", .vStr "Point")]) "Point" rfl rfl).1 rfl


theorem decodeCoordList_int (ns : List Int) :
    decodeCoordList (mkArr (ns.map BVal.vInt)) = .ok (ns.map fun n : Int => (n : Rat)) := by
  induction ns with
  | nil => rfl
  | cons n rest ih => simp [mkArr, decodeCoordList, decodeCoordinate, ih, Except.map]

theorem decodeCoordList_intFloat (ns : List Int) :
    decodeCoordList (mkArr (ns.map fun n : Int => BVal.vFloat (n : Rat)))
      = .ok (ns.map fun n : Int => (n : Rat)) := by
  induction ns with
  | nil => rfl
  | cons n rest ih => simp [mkArr, decodeCoordList, decodeCoordinate, ih, Except.map]

/-- C4: decodePosition accepts every numeric leaf representation — a
float64 is taken as is, and `int`, `int32` and `int64` leaves are
converted to floating point — so a position written with integer leaves
decodes to the same Position as the same numbers written with
floating-point leaves; the first non-numeric element makes it fail with
the "not a valid coordinate" error reporting exactly that element. -/
theorem decodePosition_numeric_coercion :
    (∀ q, decodeCoordinate (.vFloat q) = .ok q)
    ∧ (∀ i : Int, decodeCoordinate (.vInt i) = .ok (i : Rat)
        ∧ decodeCoordinate (.vInt32 i) = .ok (i : Rat)
        ∧ decodeCoordinate (.vInt64 i) = .ok (i : Rat))
    ∧ (∀ ns : List Int,
        decodePosition (some (.vArr (mkArr (ns.map BVal.vInt))))
          = decodePosition (some (.vArr (mkArr (ns.map fun n : Int => BVal.vFloat (n : Rat)))))
        ∧ decodePosition (some (.vArr (mkArr (ns.map BVal.vInt))))
          = .ok (ns.map fun n : Int => (n : Rat)))
    ∧ (∀ (pre : List BVal) (c : BVal) (post : List BVal),
        (∀ x ∈ pre, isNumVal x = true) → isNumVal c = false →
        decodePosition (some (.vArr (mkArr (pre ++ c :: post))))
          = .error (.invalidCoordinate c)) := by
  refine ⟨fun q => rfl, fun i => ⟨rfl, rfl, rfl⟩, ?_, ?_⟩
  · intro ns
    constructor
    · show decodeCoordList (mkArr (ns.map BVal.vInt))
        = decodeCoordList (mkArr (ns.map fun n : Int => BVal.vFloat (n : Rat)))
      rw [decodeCoordList_int, decodeCoordList_intFloat]
    · show decodeCoordList (mkArr (ns.map BVal.vInt)) = _
      exact decodeCoordList_int ns
  · intro pre c post hpre hc
    show decodeCoordList (mkArr (pre ++ c :: post)) = _
    exact decodeCoordList_first_bad (mkArr (pre ++ c :: post)) pre c post
      (mkArr_toList _) hpre hc

theorem decodePosition_numeric_coercion_witness :
    decodePosition (some (.vArr (mkArr [.vInt 1, .vInt 2])))
      = decodePosition (some (.vArr (mkArr [.vFloat 1, .vFloat 2]))) ∧
    decodePosition (some (.vArr (mkArr [.vInt 1, .vInt 2]))) = .ok [1, 2] ∧
    decodePosition (some (.vArr (mkArr [.vFloat 1, .vBool true])))
      = .error (.invalidCoordinate (.vBool true)) := by
  refine ⟨?_, ?_, ?_⟩
  · exact (decodePosition_numeric_coercion.2.2.1 [1, 2]).1
  · exact (decodePosition_numeric_coercion.2.2.1 [1, 2]).2
  · exact decodePosition_numeric_coercion.2.2.2 [.vFloat 1] (.vBool true) []
      (by intro x hx; simp at hx; subst hx; rfl) rfl

/-- C7: encoding is a total function, and for every Geometry carrying one
of the seven recognized tags the produced document has exactly the keys
`type` followed by one payload key: `coordinates` for the six
coordinate-bearing tags and `geometries` for GeometryCollection; the other
payload key is entirely absent (never emitted as null), so an encoded
Point has no `geometries` key and an encoded GeometryCollection has no
`coordinates` key. -/
theorem toPureGeometry_keys (g : Geometry) (h : g.type ∈ recognizedTags) :
    (toPureGeometry g).keys
      = ["type", if g.type = "GeometryCollection" then "geometries" else "coordinates"] := by
  cases g with
  | mk t p mp ls mls poly mpoly gs =>
    simp [recognizedTags, Geometry.type] at h
    rcases h with rfl | rfl | rfl | rfl | rfl | rfl | rfl <;> rfl

theorem toPureGeometry_keys_witness :
    Geometry.type (Geometry.mk "Point" [1, 2] [] [] [] [] [] .nil) ∈ recognizedTags ∧
    (toPureGeometry (Geometry.mk "Point" [1, 2] [] [] [] [] [] .nil)).keys
      = ["type", "coordinates"] ∧
    Geometry.type (Geometry.mk "GeometryCollection" [] [] [] [] [] [] .nil)
      ∈ recognizedTags ∧
    (toPureGeometry (Geometry.mk "GeometryCollection" [] [] [] [] [] [] .nil)).keys
      = ["type", "geometries"] := by
  have h1 : Geometry.type (Geometry.mk "Point" [1, 2] [] [] [] [] [] .nil)
      ∈ recognizedTags := by simp [recognizedTags, Geometry.type]
  have h2 : Geometry.type (Geometry.mk "GeometryCollection" [] [] [] [] [] [] .nil)
      ∈ recognizedTags := by simp [recognizedTags, Geometry.type]
  refine ⟨h1, ?_, h2, ?_⟩
  · rw [toPureGeometry_keys _ h1]
    rfl
  · rw [toPureGeometry_keys _ h2]
    rfl

/-- C8: decodePositionSet fails with the "not a valid set of positions"
(InvalidPositionSequence) error when the value is not a sequence; when the
value is a sequence with a failing element it fails by propagating the
first (earliest-index) inner decodePosition failure verbatim — under the
specification's taxonomy such a failure of the position-sequence level is
an InvalidPositionSequence failure carrying the inner error; and it
succeeds exactly when the value is a sequence whose every element parses
as a Position. -/
theorem decodePositionSet_characterization :
    (∀ data, (∀ vs, data ≠ some (.vArr vs)) →
      decodePositionSet data = .error (.invalidPositionSet data))
    ∧ (∀ (b : BArr) (pre : List BVal) (v : BVal) (post : List BVal) (e : DecodeError),
        BArr.toList b = pre ++ v :: post →
        (∀ p ∈ pre, ∃ q, decodePosition (some p) = .ok q) →
        decodePosition (some v) = .error e →
        decodePositionSet (some (.vArr b)) = .error e)
    ∧ (∀ b : BArr, (∀ p ∈ BArr.toList b, ∃ q, decodePosition (some p) = .ok q) →
        ∃ ps, decodePositionSet (some (.vArr b)) = .ok ps)
    ∧ (∀ data ps, decodePositionSet data = .ok ps →
        ∃ b, data = some (.vArr b) ∧ ∀ p ∈ BArr.toList b, ∃ q, decodePosition (some p) = .ok q) := by
  refine ⟨?_, ?_, ?_, ?_⟩
  · intro data hne
    cases data with
    | none => rfl
    | some w =>
      rcases w with q | i | i | i | s | b2 | _ | vs | d2
      · rfl
      · rfl
      · rfl
      · rfl
      · rfl
      · rfl
      · rfl
      · exact absurd rfl (hne vs)
      · rfl
  · intro b pre v post e hsplit hpre hv
    exact decodePosList_first_error b pre v post e hsplit hpre hv
  · intro b hall
    exact decodePosList_ok b hall
  · intro data ps h
    cases data with
    | none => simp [decodePositionSet] at h
    | some w =>
      rcases w with q | i | i | i | s | b2 | _ | vs | d2 <;> simp [decodePositionSet] at h
      exact ⟨vs, rfl, decodePosList_ok_all vs ps h⟩

theorem decodePositionSet_characterization_witness :
    decodePositionSet (some (.vArr (mkArr [.vArr (mkArr [.vInt 1, .vInt 2]), .vStr "x"])))
      = .error (.invalidPosition (some (.vStr "x"))) := by
  refine decodePositionSet_characterization.2.1
    (mkArr [.vArr (mkArr [.vInt 1, .vInt 2]), .vStr "x"])
    [.vArr (mkArr [.vInt 1, .vInt 2])] (.vStr "x") []
    (.invalidPosition (some (.vStr "x"))) (mkArr_toList _) ?_ rfl
  intro p hp
  simp at hp
  subst hp
  exact ⟨[1, 2], rfl⟩


theorem decodeGeometries_arr_eq (b : BArr) {r : Except DecodeError GeometryList}
    (h : decodeGeomElemsF (BArr.size b + 1) (.vArr b) b = some r) :
    decodeGeometries (some (.vArr b)) = r := by
  have h2 : decodeGeometriesF ((BArr.size b + 1) + 1) (some (.vArr b)) = some r := by
    simp only [decodeGeometriesF]
    exact h
  exact decodeGeometries_eq_of_F h2

/-- C6: decodeGeometries is all-or-nothing.  It fails with the "not a
valid set of geometries" (InvalidGeometrySequence) error when the value is
not a sequence or when some element (after a prefix of successfully
decoded documents) is not a document; when some element is a document
whose recursive decode fails, it fails with that propagated inner error —
per the specification's taxonomy these are all failures of the
geometry-sequence level; in every failure case the typed result carries no
list at all.  It succeeds exactly when every element is a document that
decodes without error, and then the returned children are the decoded
documents in the same order and number as the input sequence. -/
theorem decodeGeometries_all_or_nothing :
    (∀ data, (∀ vs, data ≠ some (.vArr vs)) →
      decodeGeometries data = .error (.invalidGeometrySet data))
    ∧ (∀ (b : BArr) (pre : List BVal) (v : BVal) (post : List BVal),
        BArr.toList b = pre ++ v :: post →
        (∀ m ∈ pre, ∃ d, m = .vDoc d ∧ (decodeGeometry emptyGeometry d).2 = none) →
        (∀ d, v ≠ .vDoc d) →
        decodeGeometries (some (.vArr b))
          = .error (.invalidGeometrySet (some (.vArr b))))
    ∧ (∀ (b : BArr) (pre : List BVal) (dv : BDoc) (post : List BVal) (e : DecodeError),
        BArr.toList b = pre ++ .vDoc dv :: post →
        (∀ m ∈ pre, ∃ d, m = .vDoc d ∧ (decodeGeometry emptyGeometry d).2 = none) →
        (decodeGeometry emptyGeometry dv).2 = some e →
        decodeGeometries (some (.vArr b)) = .error e)
    ∧ (∀ b : BArr,
        (∀ m ∈ BArr.toList b, ∃ d, m = .vDoc d ∧ (decodeGeometry emptyGeometry d).2 = none) →
        ∃ gs, decodeGeometries (some (.vArr b)) = .ok gs ∧
          GeometryList.toList gs = (BArr.toList b).map decodeDocChild)
    ∧ (∀ (b : BArr) (gs : GeometryList), decodeGeometries (some (.vArr b)) = .ok gs →
        (∀ m ∈ BArr.toList b, ∃ d, m = .vDoc d ∧ (decodeGeometry emptyGeometry d).2 = none)
        ∧ GeometryList.toList gs = (BArr.toList b).map decodeDocChild) := by
  refine ⟨?_, ?_, ?_, ?_, ?_⟩
  · intro data hne
    cases data with
    | none => rfl
    | some w =>
      rcases w with q | i | i | i | s | b2 | _ | vs | d2
      · rfl
      · rfl
      · rfl
      · rfl
      · rfl
      · rfl
      · rfl
      · exact absurd rfl (hne vs)
      · rfl
  · intro b pre v post hsplit hpre hv
    exact decodeGeometries_arr_eq b
      (decodeGeomElemsF_break (BArr.size b + 1) (.vArr b) b pre v post (by omega)
        hsplit hpre hv)
  · intro b pre dv post e hsplit hpre he
    exact decodeGeometries_arr_eq b
      (decodeGeomElemsF_inner_error (BArr.size b + 1) (.vArr b) b pre dv post e (by omega)
        hsplit hpre he)
  · intro b hall
    obtain ⟨gs, hgs, hmap⟩ :=
      decodeGeomElemsF_ok_of_all (BArr.size b + 1) (.vArr b) b (by omega) hall
    exact ⟨gs, decodeGeometries_arr_eq b hgs, hmap⟩
  · intro b gs h
    have hF : decodeGeometriesF (optSize (some (.vArr b)) + 1) (some (.vArr b))
        = some (decodeGeometries (some (.vArr b))) :=
      decodeGeometriesF_eq_decode (some (.vArr b)) (by omega)
    rw [h] at hF
    have hF2 : decodeGeomElemsF (optSize (some (.vArr b))) (.vArr b) b = some (.ok gs) := by
      simp only [decodeGeometriesF] at hF
      exact hF
    have hsz : BArr.size b < optSize (some (.vArr b)) := by
      simp [optSize, BVal.size]
    exact decodeGeomElemsF_ok_inv (optSize (some (.vArr b))) (.vArr b) b gs hsz hF2

theorem decodeGeometries_all_or_nothing_witness :
    decodeGeometries (some (.vArr (mkArr
        [.vDoc (mkDoc [("type", .vStr "Point"), ("coordinates", .vArr (mkArr [.vInt 1, .vInt 2]))]),
         .vInt 5])))
      = .error (.invalidGeometrySet (some (.vArr (mkArr
        [.vDoc (mkDoc [("type", .vStr "Point"), ("coordinates", .vArr (mkArr [.vInt 1, .vInt 2]))]),
         .vInt 5])))) := by
  refine decodeGeometries_all_or_nothing.2.1 _
    [.vDoc (mkDoc [("type", .vStr "Point"), ("coordinates", .vArr (mkArr [.vInt 1, .vInt 2]))])]
    (.vInt 5) [] (mkArr_toList _) ?_ ?_
  · intro m hm
    simp at hm
    subst hm
    exact ⟨_, rfl, rfl⟩
  · intro d h
    simp at h


/-- C3: decoding a document whose recognized coordinate-bearing `type`
requires nesting depth r (1 Point, 2 MultiPoint/LineString,
3 MultiLineString/Polygon, 4 MultiPolygon) but whose `coordinates` value
has uniform strict nesting depth d ≠ r always fails; when the value is too
shallow (d < r) the error is the not-a-sequence error of the decoder level
where the mismatch is detected, `seqErr (r - d)`; when it is too deep
(r < d) the mismatch is detected at the innermost coordinate level and the
error is the "not a valid coordinate" (InvalidPosition) error — in
particular `{"type":"Point","coordinates":[[1,2]]}` fails with the
InvalidPosition kind because the inner element is a sequence, not a
number. -/
theorem decode_shape_mismatch (t : String) (r d : Nat) (v : BVal)
    (ht : coordTagDepth t = some r) (hv : StrictDepth d v) (hne : d ≠ r) :
    ∃ e, decodeGeometry emptyGeometry (mkDoc [("type", .vStr t), ("coordinates", v)])
        = (emptyGeometry.setType t, some e)
      ∧ (d < r → ∃ w, e = seqErr (r - d) w)
      ∧ (r < d → ∃ w, e = .invalidCoordinate w) := by
  unfold coordTagDepth at ht
  split at ht
  · -- Point, required depth 1
    obtain rfl : (1 : Nat) = r := Option.some.inj ht
    have hty : lookupKey (mkDoc [("type", .vStr "Point"), ("coordinates", v)]) "type"
        = some (.vStr "Point") := rfl
    have hco : lookupKey (mkDoc [("type", .vStr "Point"), ("coordinates", v)]) "coordinates"
        = some v := rfl
    rcases Nat.lt_trichotomy d 1 with hlt | heq | hgt
    · obtain rfl : d = 0 := by omega
      have herr := (decodePosition_depth 0 v hv).2.1 rfl
      refine ⟨.invalidPosition (some v), ?_, fun _ => ⟨some v, rfl⟩, fun hcon => by omega⟩
      apply decodeGeometry_step
      rw [decodeStep_point _ _ _ hty, hco, herr]
      rfl
    · exact absurd heq hne
    · obtain ⟨w, hw⟩ := (decodePosition_depth d v hv).2.2 (by omega)
      refine ⟨.invalidCoordinate w, ?_, fun hcon => by omega, fun _ => ⟨w, rfl⟩⟩
      apply decodeGeometry_step
      rw [decodeStep_point _ _ _ hty, hco, hw]
      rfl
  · -- MultiPoint, required depth 2
    obtain rfl : (2 : Nat) = r := Option.some.inj ht
    have hty : lookupKey (mkDoc [("type", .vStr "MultiPoint"), ("coordinates", v)]) "type"
        = some (.vStr "MultiPoint") := rfl
    have hco : lookupKey (mkDoc [("type", .vStr "MultiPoint"), ("coordinates", v)])
        "coordinates" = some v := rfl
    rcases Nat.lt_trichotomy d 2 with hlt | heq | hgt
    · rcases (by omega : d = 0 ∨ d = 1) with rfl | rfl
      · have herr := (decodePositionSet_depth 0 v hv).2.1 rfl
        refine ⟨.invalidPositionSet (some v), ?_, fun _ => ⟨some v, rfl⟩, fun hcon => by omega⟩
        apply decodeGeometry_step
        rw [decodeStep_multiPoint _ _ _ hty, hco, herr]
        rfl
      · obtain ⟨w, hw⟩ := (decodePositionSet_depth 1 v hv).2.2.1 rfl
        refine ⟨.invalidPosition w, ?_, fun _ => ⟨w, rfl⟩, fun hcon => by omega⟩
        apply decodeGeometry_step
        rw [decodeStep_multiPoint _ _ _ hty, hco, hw]
        rfl
    · exact absurd heq hne
    · obtain ⟨w, hw⟩ := (decodePositionSet_depth d v hv).2.2.2 (by omega)
      refine ⟨.invalidCoordinate w, ?_, fun hcon => by omega, fun _ => ⟨w, rfl⟩⟩
      apply decodeGeometry_step
      rw [decodeStep_multiPoint _ _ _ hty, hco, hw]
      rfl
  · -- LineString, required depth 2
    obtain rfl : (2 : Nat) = r := Option.some.inj ht
    have hty : lookupKey (mkDoc [("type", .vStr "LineString"), ("coordinates", v)]) "type"
        = some (.vStr "LineString") := rfl
    have hco : lookupKey (mkDoc [("type", .vStr "LineString"), ("coordinates", v)])
        "coordinates" = some v := rfl
    rcases Nat.lt_trichotomy d 2 with hlt | heq | hgt
    · rcases (by omega : d = 0 ∨ d = 1) with rfl | rfl
      · have herr := (decodePositionSet_depth 0 v hv).2.1 rfl
        refine ⟨.invalidPositionSet (some v), ?_, fun _ => ⟨some v, rfl⟩, fun hcon => by omega⟩
        apply decodeGeometry_step
        rw [decodeStep_lineString _ _ _ hty, hco, herr]
        rfl
      · obtain ⟨w, hw⟩ := (decodePositionSet_depth 1 v hv).2.2.1 rfl
        refine ⟨.invalidPosition w, ?_, fun _ => ⟨w, rfl⟩, fun hcon => by omega⟩
        apply decodeGeometry_step
        rw [decodeStep_lineString _ _ _ hty, hco, hw]
        rfl
    · exact absurd heq hne
    · obtain ⟨w, hw⟩ := (decodePositionSet_depth d v hv).2.2.2 (by omega)
      refine ⟨.invalidCoordinate w, ?_, fun hcon => by omega, fun _ => ⟨w, rfl⟩⟩
      apply decodeGeometry_step
      rw [decodeStep_lineString _ _ _ hty, hco, hw]
      rfl
  · -- MultiLineString, required depth 3
    obtain rfl : (3 : Nat) = r := Option.some.inj ht
    have hty : lookupKey (mkDoc [("type", .vStr "MultiLineString"), ("coordinates", v)])
        "type" = some (.vStr "MultiLineString") := rfl
    have hco : lookupKey (mkDoc [("type", .vStr "MultiLineString"), ("coordinates", v)])
        "coordinates" = some v := rfl
    rcases Nat.lt_trichotomy d 3 with hlt | heq | hgt
    · rcases (by omega : d = 0 ∨ d = 1 ∨ d = 2) with rfl | rfl | rfl
      · have herr := (decodePathSet_depth 0 v hv).2.1 rfl
        refine ⟨.invalidPathSet (some v), ?_, fun _ => ⟨some v, rfl⟩, fun hcon => by omega⟩
        apply decodeGeometry_step
        rw [decodeStep_multiLineString _ _ _ hty, hco, herr]
        rfl
      · obtain ⟨w, hw⟩ := (decodePathSet_depth 1 v hv).2.2.1 rfl
        refine ⟨.invalidPositionSet w, ?_, fun _ => ⟨w, rfl⟩, fun hcon => by omega⟩
        apply decodeGeometry_step
        rw [decodeStep_multiLineString _ _ _ hty, hco, hw]
        rfl
      · obtain ⟨w, hw⟩ := (decodePathSet_depth 2 v hv).2.2.2.1 rfl
        refine ⟨.invalidPosition w, ?_, fun _ => ⟨w, rfl⟩, fun hcon => by omega⟩
        apply decodeGeometry_step
        rw [decodeStep_multiLineString _ _ _ hty, hco, hw]
        rfl
    · exact absurd heq hne
    · obtain ⟨w, hw⟩ := (decodePathSet_depth d v hv).2.2.2.2 (by omega)
      refine ⟨.invalidCoordinate w, ?_, fun hcon => by omega, fun _ => ⟨w, rfl⟩⟩
      apply decodeGeometry_step
      rw [decodeStep_multiLineString _ _ _ hty, hco, hw]
      rfl
  · -- Polygon, required depth 3
    obtain rfl : (3 : Nat) = r := Option.some.inj ht
    have hty : lookupKey (mkDoc [("type", .vStr "Polygon"), ("coordinates", v)]) "type"
        = some (.vStr "Polygon") := rfl
    have hco : lookupKey (mkDoc [("type", .vStr "Polygon"), ("coordinates", v)])
        "coordinates" = some v := rfl
    rcases Nat.lt_trichotomy d 3 with hlt | heq | hgt
    · rcases (by omega : d = 0 ∨ d = 1 ∨ d = 2) with rfl | rfl | rfl
      · have herr := (decodePathSet_depth 0 v hv).2.1 rfl
        refine ⟨.invalidPathSet (some v), ?_, fun _ => ⟨some v, rfl⟩, fun hcon => by omega⟩
        apply decodeGeometry_step
        rw [decodeStep_polygon _ _ _ hty, hco, herr]
        rfl
      · obtain ⟨w, hw⟩ := (decodePathSet_depth 1 v hv).2.2.1 rfl
        refine ⟨.invalidPositionSet w, ?_, fun _ => ⟨w, rfl⟩, fun hcon => by omega⟩
        apply decodeGeometry_step
        rw [decodeStep_polygon _ _ _ hty, hco, hw]
        rfl
      · obtain ⟨w, hw⟩ := (decodePathSet_depth 2 v hv).2.2.2.1 rfl
        refine ⟨.invalidPosition w, ?_, fun _ => ⟨w, rfl⟩, fun hcon => by omega⟩
        apply decodeGeometry_step
        rw [decodeStep_polygon _ _ _ hty, hco, hw]
        rfl
    · exact absurd heq hne
    · obtain ⟨w, hw⟩ := (decodePathSet_depth d v hv).2.2.2.2 (by omega)
      refine ⟨.invalidCoordinate w, ?_, fun hcon => by omega, fun _ => ⟨w, rfl⟩⟩
      apply decodeGeometry_step
      rw [decodeStep_polygon _ _ _ hty, hco, hw]
      rfl
  · -- MultiPolygon, required depth 4
    obtain rfl : (4 : Nat) = r := Option.some.inj ht
    have hty : lookupKey (mkDoc [("type", .vStr "MultiPolygon"), ("coordinates", v)]) "type"
        = some (.vStr "MultiPolygon") := rfl
    have hco : lookupKey (mkDoc [("type", .vStr "MultiPolygon"), ("coordinates", v)])
        "coordinates" = some v := rfl
    rcases Nat.lt_trichotomy d 4 with hlt | heq | hgt
    · rcases (by omega : d = 0 ∨ d = 1 ∨ d = 2 ∨ d = 3) with rfl | rfl | rfl | rfl
      · have herr := (decodePolygonSet_depth 0 v hv).2.1 rfl
        refine ⟨.invalidPolygonSet (some v), ?_, fun _ => ⟨some v, rfl⟩, fun hcon => by omega⟩
        apply decodeGeometry_step
        rw [decodeStep_multiPolygon _ _ _ hty, hco, herr]
        rfl
      · obtain ⟨w, hw⟩ := (decodePolygonSet_depth 1 v hv).2.2.1 rfl
        refine ⟨.invalidPathSet w, ?_, fun _ => ⟨w, rfl⟩, fun hcon => by omega⟩
        apply decodeGeometry_step
        rw [decodeStep_multiPolygon _ _ _ hty, hco, hw]
        rfl
      · obtain ⟨w, hw⟩ := (decodePolygonSet_depth 2 v hv).2.2.2.1 rfl
        refine ⟨.invalidPositionSet w, ?_, fun _ => ⟨w, rfl⟩, fun hcon => by omega⟩
        apply decodeGeometry_step
        rw [decodeStep_multiPolygon _ _ _ hty, hco, hw]
        rfl
      · obtain ⟨w, hw⟩ := (decodePolygonSet_depth 3 v hv).2.2.2.2.1 rfl
        refine ⟨.invalidPosition w, ?_, fun _ => ⟨w, rfl⟩, fun hcon => by omega⟩
        apply decodeGeometry_step
        rw [decodeStep_multiPolygon _ _ _ hty, hco, hw]
        rfl
    · exact absurd heq hne
    · obtain ⟨w, hw⟩ := (decodePolygonSet_depth d v hv).2.2.2.2.2 (by omega)
      refine ⟨.invalidCoordinate w, ?_, fun hcon => by omega, fun _ => ⟨w, rfl⟩⟩
      apply decodeGeometry_step
      rw [decodeStep_multiPolygon _ _ _ hty, hco, hw]
      rfl
  · simp at ht

theorem decode_shape_mismatch_witness :
    coordTagDepth "Point" = some 1 ∧ (2 : Nat) ≠ 1 ∧
    (∃ e, decodeGeometry emptyGeometry
        (mkDoc [("type", .vStr "Point"),
          ("coordinates", .vArr (mkArr [.vArr (mkArr [.vInt 1, .vInt 2])]))])
        = (emptyGeometry.setType "Point", some e)
      ∧ ((2 : Nat) < 1 → ∃ w, e = seqErr (1 - 2) w)
      ∧ ((1 : Nat) < 2 → ∃ w, e = .invalidCoordinate w)) := by
  have hdep : StrictDepth 2 (.vArr (mkArr [.vArr (mkArr [.vInt 1, .vInt 2])])) := by
    refine .arr 1 _ (by simp [mkArr]) ?_
    intro x hx
    rw [mkArr_toList] at hx
    simp at hx
    subst hx
    refine .arr 0 _ (by simp [mkArr]) ?_
    intro y hy
    rw [mkArr_toList] at hy
    simp at hy
    rcases hy with rfl | rfl
    · exact .num _ rfl
    · exact .num _ rfl
  exact ⟨rfl, by omega, decode_shape_mismatch "Point" 1 2 _ rfl hdep (by omega)⟩

end GeoJSON
